import Mathlib

/-!
# The `ICBinaryArith_Int32` inline-cache stub of `SharedIC-ppc64le.cpp`

`ICBinaryArith_Int32::Compiler::generateStubCode` emits, for one operator `op_`
and one flag `allowDouble_`, a short straight-line instruction sequence with
forward branches to a shared `failure` label.  The development below embeds the
*behaviour of the emitted sequence* as a function from the register file on
entry to an outcome (`returned` through `EmitReturnFromIC`, or `failure`
through `EmitStubGuardFailure`), one `let` per emitted instruction, in the
order of the source.

The macro-assembler helpers, the instruction emitters and the value encoding
live outside `SharedIC-ppc64le.cpp`; they are modelled here, each under a doc
comment that says so.  Instruction emitters (`as_*`, `subf`) have the meaning
of the PowerPC instruction they are named after, on the low word of their
operands; `ma_b` compares low words as signed 32-bit integers; boxing keeps
the low word of the payload.  Where the instruction set leaves a result
undefined (the quotient of `divwo` on overflow) the value is a parameter
`undef`, so that every statement below holds for every such divider.
-/

namespace SharedIC

/-! ## Words -/

/-- Signed reading of the low 32-bit word of a register. -/
def toInt32 (x : Nat) : Int :=
  if x % 4294967296 < 2147483648 then ((x % 4294967296 : Nat) : Int)
  else ((x % 4294967296 : Nat) : Int) - 4294967296

/-- Two's-complement 32-bit word of an integer. -/
def ofInt32 (i : Int) : Nat := (i % 4294967296).toNat

/-- Smallest 32-bit signed integer. -/
def INT32_MIN : Int := -2147483648

/-- Largest 32-bit signed integer. -/
def INT32_MAX : Int := 2147483647

/-- Membership in the signed 32-bit range. -/
def isInt32 (i : Int) : Prop := INT32_MIN ≤ i ∧ i ≤ INT32_MAX

instance (i : Int) : Decidable (isInt32 i) := by
  unfold isInt32; infer_instance

/-! ## Value encoding -/

/-- Modelled from the spec: the tagged-value layout (`Value.h` is not among the
sources).  A boxed value is a 64-bit word whose discriminant sits above bit 47. -/
def JSVAL_TAG_SHIFT : Nat := 47

/-- Modelled from the spec: the tag prefix shared by all non-double values. -/
def JSVAL_TAG_MAX_DOUBLE : Nat := 0x1FFF0

/-- Modelled from the spec: the type code of a 32-bit integer. -/
def JSVAL_TYPE_INT32 : Nat := 1

/-- Modelled from the spec: the tag of a type code. -/
def JSVAL_TYPE_TO_TAG (type : Nat) : Nat := JSVAL_TAG_MAX_DOUBLE ||| type

/-- Modelled from the spec: `boxValue(type, src, dest)`, the trusted `box`
primitive; `dest` receives the tag over the low word of `src`. -/
def boxValue (type : Nat) (src : Nat) : Nat :=
  (JSVAL_TYPE_TO_TAG type <<< JSVAL_TAG_SHIFT) ||| (src % 4294967296)

/-- Modelled from the spec: `tagValue(type, payload, dest)`, the trusted `box`
primitive writing a whole `ValueOperand`. -/
def tagValue (type : Nat) (payload : Nat) : Nat := boxValue type payload

/-- Modelled from the spec: `unboxInt32(src, dest)`, the trusted `unbox`
primitive; `dest` receives the payload word. -/
def unboxInt32 (src : Nat) : Nat := src % 4294967296

/-- Modelled from the spec: the discriminant test behind `branchTestInt32`. -/
def isInt32Tagged (v : Nat) : Bool :=
  v >>> JSVAL_TAG_SHIFT == JSVAL_TYPE_TO_TAG JSVAL_TYPE_INT32

/-- The boxed representation of a 32-bit signed integer. -/
def boxInt32 (i : Int) : Nat := boxValue JSVAL_TYPE_INT32 (ofInt32 i)

/-! ## Machine state -/

/-- The registers the stub touches, taken to be pairwise distinct.  `R0` and
`R1` are the operand slots (`R0` is also the result slot), `scratchReg` is
`R2.valueReg()`, `OV` is the overflow bit of the XER written by `divwo`. -/
structure Regs where
  R0 : Nat
  R1 : Nat
  scratchReg : Nat
  ExtractTemp0 : Nat
  ExtractTemp1 : Nat
  r0 : Nat
  t8 : Nat
  FloatReg1 : Nat
  OV : Bool
  deriving DecidableEq, Repr

/-- How one execution of the stub ends: `EmitReturnFromIC` or the `failure`
label (`EmitStubGuardFailure`), with the registers at that point. -/
inductive Outcome where
  | returned (s : Regs)
  | failure (s : Regs)
  deriving DecidableEq, Repr

/-- The boxed value in the result slot when the stub returned. -/
def Outcome.result : Outcome → Option Nat
  | .returned s => some s.R0
  | .failure _ => none

/-- Whether the stub took the bail-out edge. -/
def Outcome.bailed : Outcome → Bool
  | .returned _ => false
  | .failure _ => true

/-- The registers at the exit. -/
def Outcome.regs : Outcome → Regs
  | .returned s => s
  | .failure s => s

/-- The operators of `ICBinaryArith_Int32` (the `case` labels of the switch). -/
inductive JSOp where
  | JSOP_ADD | JSOP_SUB | JSOP_MUL | JSOP_DIV | JSOP_MOD
  | JSOP_BITOR | JSOP_BITXOR | JSOP_BITAND
  | JSOP_LSH | JSOP_RSH | JSOP_URSH
  deriving DecidableEq, Repr

/-- Branch conditions used by the stub. -/
inductive Condition where
  | Equal | NotEqual | LessThan
  deriving DecidableEq, Repr

/-! ## Macro-assembler helpers and instructions -/

/-- Modelled from the spec: `branchTestInt32(cond, value, label)`, the type
guard; the result says whether the branch is taken. -/
def branchTestInt32 (cond : Condition) (value : Nat) : Bool :=
  match cond with
  | .Equal => isInt32Tagged value
  | .NotEqual => !isInt32Tagged value
  | .LessThan => false

/-- Modelled from the spec: `Imm32(k)`, a 32-bit immediate. -/
def Imm32 (k : Int) : Nat := ofInt32 k

/-- Modelled from the spec: `ma_b(lhs, rhs, label, cond, ShortJump)`, compare
two words as signed 32-bit integers and branch; the result says whether the
branch is taken. -/
def ma_b (lhs rhs : Nat) (cond : Condition) : Bool :=
  match cond with
  | .Equal => decide (toInt32 lhs = toInt32 rhs)
  | .NotEqual => decide (toInt32 lhs ≠ toInt32 rhs)
  | .LessThan => decide (toInt32 lhs < toInt32 rhs)

/-- Modelled from the spec: `ma_addTestOverflow(rd, rs, rt, overflow)`, the
checked add: the sum word for `rd` and whether the signed sum overflowed. -/
def ma_addTestOverflow (rs rt : Nat) : Nat × Bool :=
  (ofInt32 (toInt32 rs + toInt32 rt),
   decide (toInt32 rs + toInt32 rt < INT32_MIN ∨ INT32_MAX < toInt32 rs + toInt32 rt))

/-- Modelled from the spec: `ma_subTestOverflow(rd, rs, rt, overflow)`, the
checked subtract. -/
def ma_subTestOverflow (rs rt : Nat) : Nat × Bool :=
  (ofInt32 (toInt32 rs - toInt32 rt),
   decide (toInt32 rs - toInt32 rt < INT32_MIN ∨ INT32_MAX < toInt32 rs - toInt32 rt))

/-- Modelled from the spec: `ma_mul_branch_overflow(rd, rs, rt, overflow)`, the
checked multiply. -/
def ma_mul_branch_overflow (rs rt : Nat) : Nat × Bool :=
  (ofInt32 (toInt32 rs * toInt32 rt),
   decide (toInt32 rs * toInt32 rt < INT32_MIN ∨ INT32_MAX < toInt32 rs * toInt32 rt))

/-- Modelled from the spec: the emitter `as_divwo(rt, ra, rb)` (the assembler
is not among the sources), the checked truncating divide, with the meaning of
the instruction `divwo`: signed truncating division of the low words.  For
`x / 0` and `INT_MIN / -1` the quotient is undefined (here the low word of
`undef ra rb`) and OV is set; otherwise OV is cleared.  The result is the
quotient word paired with OV. -/
def as_divwo (undef : Nat → Nat → Nat) (ra rb : Nat) : Nat × Bool :=
  if toInt32 rb = 0 ∨ (toInt32 ra = INT32_MIN ∧ toInt32 rb = -1) then
    (undef ra rb % 4294967296, true)
  else
    (ofInt32 ((toInt32 ra).tdiv (toInt32 rb)), false)

/-- Modelled from the spec: the emitter `as_mullw(rt, ra, rb)`, with the
meaning of the instruction `mullw`: low word of the product of the low
words. -/
def as_mullw (ra rb : Nat) : Nat := ofInt32 (toInt32 ra * toInt32 rb)

/-- Modelled from the spec: the emitter `subf(rt, ra, rb)`, with the meaning
of the instruction `subf`: `rt = rb - ra` (low word). -/
def subf (ra rb : Nat) : Nat := ofInt32 (toInt32 rb - toInt32 ra)

/-- Modelled from the spec: the emitter `as_xor(ra, rs, rb)`, the instruction
`xor` on whole registers. -/
def as_xor (rs rb : Nat) : Nat := rs ^^^ rb

/-- Modelled from the spec: the emitter `as_or(ra, rs, rb)`, the instruction
`or` on whole registers. -/
def as_or (rs rb : Nat) : Nat := rs ||| rb

/-- Modelled from the spec: the emitter `as_and(ra, rs, rb)`, the instruction
`and` on whole registers. -/
def as_and (rs rb : Nat) : Nat := rs &&& rb

/-- Modelled from the spec: the emitter `as_andi_rc(ra, rs, imm)`, the
instruction `andi.`: bitwise and with an immediate (the mask of the shift
amount). -/
def as_andi_rc (rs imm : Nat) : Nat := rs &&& imm

/-- Modelled from the spec: the emitter `as_slw(ra, rs, rb)`, the left shift
primitive, with the meaning of the instruction `slw`: the low word of `rs`
shifted left by the low six bits of `rb`, truncated to a word (zero for
amounts 32..63). -/
def as_slw (rs rb : Nat) : Nat := ((rs % 4294967296) <<< (rb % 64)) % 4294967296

/-- Modelled from the spec: the emitter `as_sraw(ra, rs, rb)`, the arithmetic
right shift primitive, with the meaning of the instruction `sraw`: the low
word of `rs` shifted right by the low six bits of `rb`, filling with the sign
bit. -/
def as_sraw (rs rb : Nat) : Nat := ofInt32 (toInt32 rs >>> (rb % 64))

/-- Modelled from the spec: the emitter `as_srw(ra, rs, rb)`, the logical
right shift primitive, with the meaning of the instruction `srw`: the low word
of `rs` shifted right by the low six bits of `rb`, filling with zeros (zero
for amounts 32..63). -/
def as_srw (rs rb : Nat) : Nat := (rs % 4294967296) >>> (rb % 64)

/-- Position of the highest set bit of a non-zero 32-bit word. -/
def wordLog2 (w : Nat) : Nat :=
  ((List.range 31).filter (fun k => decide (2 ^ (k + 1) ≤ w))).length

/-- Modelled from the spec: `convertUInt32ToDouble(src, dest)`, the IEEE-754
binary64 bit pattern of the unsigned value of the low word of `src` (exact,
every 32-bit unsigned integer is representable). -/
def convertUInt32ToDouble (src : Nat) : Nat :=
  if src % 4294967296 = 0 then 0
  else
    ((1023 + wordLog2 (src % 4294967296)) <<< 52) |||
      ((src % 4294967296 - 2 ^ wordLog2 (src % 4294967296))
        <<< (52 - wordLog2 (src % 4294967296)))

/-- Modelled from the spec: `boxDouble(src, dest, scratch)`; a double is its
own boxed representation. -/
def boxDouble (src : Nat) : Nat := src

/-! ## The stub -/

/-- Behaviour of the code emitted by
`ICBinaryArith_Int32::Compiler::generateStubCode` for operator `op_` and flag
`allowDouble_`, started on the registers `s`. -/
def generateStubCode (undef : Nat → Nat → Nat) (op_ : JSOp) (allowDouble_ : Bool)
    (s : Regs) : Outcome :=
  -- Guard that R0 is an integer and R1 is an integer.
  if branchTestInt32 .NotEqual s.R0 then .failure s else
  if branchTestInt32 .NotEqual s.R1 then .failure s else
  match op_ with
  | .JSOP_ADD =>
    let s := { s with ExtractTemp0 := unboxInt32 s.R0 }
    let s := { s with ExtractTemp1 := unboxInt32 s.R1 }
    let s := { s with scratchReg := (ma_addTestOverflow s.ExtractTemp0 s.ExtractTemp1).1 }
    if (ma_addTestOverflow s.ExtractTemp0 s.ExtractTemp1).2 then .failure s else
    let s := { s with R0 := boxValue JSVAL_TYPE_INT32 s.scratchReg }
    .returned s
  | .JSOP_SUB =>
    let s := { s with ExtractTemp0 := unboxInt32 s.R0 }
    let s := { s with ExtractTemp1 := unboxInt32 s.R1 }
    let s := { s with scratchReg := (ma_subTestOverflow s.ExtractTemp0 s.ExtractTemp1).1 }
    if (ma_subTestOverflow s.ExtractTemp0 s.ExtractTemp1).2 then .failure s else
    let s := { s with R0 := boxValue JSVAL_TYPE_INT32 s.scratchReg }
    .returned s
  | .JSOP_MUL =>
    let s := { s with ExtractTemp0 := unboxInt32 s.R0 }
    let s := { s with ExtractTemp1 := unboxInt32 s.R1 }
    let s := { s with scratchReg := (ma_mul_branch_overflow s.ExtractTemp0 s.ExtractTemp1).1 }
    if (ma_mul_branch_overflow s.ExtractTemp0 s.ExtractTemp1).2 then .failure s else
    if ma_b s.scratchReg (Imm32 0) .NotEqual then
      -- goodMul
      .returned { s with R0 := boxValue JSVAL_TYPE_INT32 s.scratchReg }
    else
      -- Result is -0 if operands have different signs.
      let s := { s with t8 := as_xor s.ExtractTemp0 s.ExtractTemp1 }
      if ma_b s.t8 (Imm32 0) .LessThan then .failure s else
      -- goodMul
      .returned { s with R0 := boxValue JSVAL_TYPE_INT32 s.scratchReg }
  | .JSOP_DIV =>
    let s := { s with ExtractTemp0 := unboxInt32 s.R0 }
    let s := { s with ExtractTemp1 := unboxInt32 s.R1 }
    -- (prologue shared by case JSOP_DIV and case JSOP_MOD)
    -- all we need to do is check for negative zero, which requires a double.
    if !ma_b s.ExtractTemp0 (Imm32 0) .NotEqual
        && ma_b s.ExtractTemp1 (Imm32 0) .LessThan then .failure s else
    -- divTest2
    let s := { s with scratchReg := (as_divwo undef s.ExtractTemp0 s.ExtractTemp1).1,
                      OV := (as_divwo undef s.ExtractTemp0 s.ExtractTemp1).2 }
    let s := { s with r0 := as_mullw s.scratchReg s.ExtractTemp1 }
    -- Result is a double if the remainder != 0.
    if ma_b s.r0 s.ExtractTemp0 .NotEqual then .failure s else
    let s := { s with R0 := tagValue JSVAL_TYPE_INT32 s.scratchReg }
    .returned s
  | .JSOP_MOD =>
    -- (prologue shared by case JSOP_DIV and case JSOP_MOD)
    let s := { s with ExtractTemp0 := unboxInt32 s.R0 }
    let s := { s with ExtractTemp1 := unboxInt32 s.R1 }
    if !ma_b s.ExtractTemp0 (Imm32 0) .NotEqual
        && ma_b s.ExtractTemp1 (Imm32 0) .LessThan then .failure s else
    -- divTest2
    let s := { s with scratchReg := (as_divwo undef s.ExtractTemp0 s.ExtractTemp1).1,
                      OV := (as_divwo undef s.ExtractTemp0 s.ExtractTemp1).2 }
    let s := { s with r0 := as_mullw s.scratchReg s.ExtractTemp1 }
    -- If X % Y == 0 and X < 0, the result is -0.
    if !ma_b s.r0 (Imm32 0) .NotEqual
        && ma_b s.ExtractTemp0 (Imm32 0) .LessThan then .failure s else
    -- done
    let s := { s with scratchReg := subf s.r0 s.ExtractTemp0 }
    let s := { s with R0 := tagValue JSVAL_TYPE_INT32 s.scratchReg }
    .returned s
  | .JSOP_BITOR =>
    .returned { s with R0 := as_or s.R0 s.R1 }
  | .JSOP_BITXOR =>
    let s := { s with scratchReg := as_xor s.R0 s.R1 }
    let s := { s with R0 := tagValue JSVAL_TYPE_INT32 s.scratchReg }
    .returned s
  | .JSOP_BITAND =>
    .returned { s with R0 := as_and s.R0 s.R1 }
  | .JSOP_LSH =>
    let s := { s with ExtractTemp0 := unboxInt32 s.R0 }
    let s := { s with ExtractTemp1 := unboxInt32 s.R1 }
    -- Mask to 0x1f, just in case.
    let s := { s with r0 := as_andi_rc s.ExtractTemp1 0x1f }
    let s := { s with scratchReg := as_slw s.ExtractTemp0 s.r0 }
    let s := { s with R0 := tagValue JSVAL_TYPE_INT32 s.scratchReg }
    .returned s
  | .JSOP_RSH =>
    let s := { s with ExtractTemp0 := unboxInt32 s.R0 }
    let s := { s with ExtractTemp1 := unboxInt32 s.R1 }
    -- Mask to 0x1f, just in case.
    let s := { s with r0 := as_andi_rc s.ExtractTemp1 0x1f }
    let s := { s with scratchReg := as_sraw s.ExtractTemp0 s.r0 }
    let s := { s with R0 := tagValue JSVAL_TYPE_INT32 s.scratchReg }
    .returned s
  | .JSOP_URSH =>
    let s := { s with ExtractTemp0 := unboxInt32 s.R0 }
    let s := { s with ExtractTemp1 := unboxInt32 s.R1 }
    -- Mask to 0x1f, just in case.
    let s := { s with r0 := as_andi_rc s.ExtractTemp1 0x1f }
    let s := { s with scratchReg := as_srw s.ExtractTemp0 s.ExtractTemp1 }
    if allowDouble_ then
      if ma_b s.scratchReg (Imm32 0) .LessThan then
        -- toUint
        let s := { s with FloatReg1 := convertUInt32ToDouble s.scratchReg }
        let s := { s with R0 := boxDouble s.FloatReg1 }
        .returned s
      else
        -- Move result and box for return.
        .returned { s with R0 := tagValue JSVAL_TYPE_INT32 s.scratchReg }
    else
      if ma_b s.scratchReg (Imm32 0) .LessThan then .failure s else
      -- Move result for return.
      let s := { s with R0 := tagValue JSVAL_TYPE_INT32 s.scratchReg }
      .returned s

/-- The stub entered with the boxed operands `x` (in `R0`) and `y` (in `R1`);
the other registers keep whatever `s` holds. -/
def runStub (undef : Nat → Nat → Nat) (op_ : JSOp) (allowDouble_ : Bool)
    (s : Regs) (x y : Nat) : Outcome :=
  generateStubCode undef op_ allowDouble_ { s with R0 := x, R1 := y }

/-- A register file with every register cleared. -/
def zeroRegs : Regs :=
  { R0 := 0, R1 := 0, scratchReg := 0, ExtractTemp0 := 0, ExtractTemp1 := 0,
    r0 := 0, t8 := 0, FloatReg1 := 0, OV := false }

/-- A divider whose undefined quotient is the dividend word. -/
def undefDividend : Nat → Nat → Nat := fun ra _ => ra

/-- A divider whose undefined quotient is zero. -/
def undefZero : Nat → Nat → Nat := fun _ _ => 0


/-! ## The general path for the bitwise operators

The spec describes the boxed-word shortcut of BitOr and BitAnd against the
general path: unbox both operands, apply the operator to the two 32-bit
integers, rebox.  These definitions follow those words. -/

/-- An integer-tagged boxed value: the integer tag over a 32-bit payload word,
nothing else in the word (the data-model invariant for values tagged
integer). -/
def isBoxedInt32 (v : Nat) : Prop := v = boxValue JSVAL_TYPE_INT32 (unboxInt32 v)

instance (v : Nat) : Decidable (isBoxedInt32 v) := by
  unfold isBoxedInt32; infer_instance

/-- The `unbox` of the spec: the signed 32-bit integer held by a boxed value. -/
def unbox (v : Nat) : Int := toInt32 (unboxInt32 v)

/-- General path for BitOr: unbox both, OR the integers, rebox. -/
def unboxOrRebox (x y : Nat) : Nat := boxInt32 (Int.lor (unbox x) (unbox y))

/-- General path for BitAnd: unbox both, AND the integers, rebox. -/
def unboxAndRebox (x y : Nat) : Nat := boxInt32 (Int.land (unbox x) (unbox y))

/-- General path for BitXor: unbox both, XOR the integers, rebox. -/
def unboxXorRebox (x y : Nat) : Nat := boxInt32 (Int.xor (unbox x) (unbox y))

/-! ## The shift recipes of the spec -/

/-- The shift amount of the spec: the right operand masked to 5 bits,
`b & 0x1f`. -/
def shiftCount (b : Int) : Nat := (Int.land b 0x1f).toNat

/-- The low 32 bits of an integer, reinterpreted as a signed 32-bit integer. -/
def wrapInt32 (i : Int) : Int := toInt32 (ofInt32 i)

/-! ## Doubles and the unsigned shift of the spec -/

/-- Modelled from the spec: the largest boxed word that is a double (every
word above it carries a non-double tag). -/
def JSVAL_SHIFTED_TAG_MAX_DOUBLE : Nat :=
  (JSVAL_TAG_MAX_DOUBLE <<< JSVAL_TAG_SHIFT) ||| 0xFFFFFFFF

/-- Modelled from the spec: the discriminant test for a double-tagged value. -/
def isDoubleTagged (v : Nat) : Bool := decide (v ≤ JSVAL_SHIFTED_TAG_MAX_DOUBLE)

/-- Sign bit of a binary64 bit pattern. -/
def doubleSign (v : Nat) : Nat := v >>> 63

/-- Biased exponent field of a binary64 bit pattern. -/
def doubleExponent (v : Nat) : Nat := (v >>> 52) % 2048

/-- Fraction field of a binary64 bit pattern. -/
def doubleFraction (v : Nat) : Nat := v % 2 ^ 52

/-- The binary64 bit pattern `v` is a normal, non-negative double whose numeric
value `(2^52 + fraction) * 2^(exponent - 1075)` is exactly the natural number
`n`. -/
def doubleIsNat (v n : Nat) : Prop :=
  doubleSign v = 0 ∧ 1 ≤ doubleExponent v ∧ doubleExponent v ≤ 1075 ∧
    n * 2 ^ (1075 - doubleExponent v) = 2 ^ 52 + doubleFraction v

instance (v n : Nat) : Decidable (doubleIsNat v n) := by
  unfold doubleIsNat; infer_instance

/-- The logical right shift of the spec: the 32-bit pattern of `a` shifted
right by `n`, filling with zeros, as an unsigned 32-bit value. -/
def ushr32 (a : Int) (n : Nat) : Nat := ofInt32 a >>> n

/-! ## The general evaluator on Mod -/

/-- Modelled from the spec: the boxed double negative zero (sign bit alone);
the spec's negative zero needs this non-integer representation. -/
def negativeZero : Nat := 0x8000000000000000

/-- Modelled from the spec: the boxed value the general evaluator gives for
`a % b` on 32-bit integers with `b ≠ 0`: the remainder of the truncating
division with the sign of the dividend, which is negative zero (a double) when
the remainder is 0 and `a < 0`, and the integer remainder otherwise. -/
def generalMod (a b : Int) : Nat :=
  if a.tmod b = 0 ∧ a < 0 then negativeZero else boxInt32 (a.tmod b)

/-! ## Facts about words and boxing -/

theorem toInt32_ofInt32 {a : Int} (h : isInt32 a) : toInt32 (ofInt32 a) = a := by
  unfold isInt32 INT32_MIN INT32_MAX at h
  unfold toInt32 ofInt32
  split <;> omega

theorem isInt32_toInt32 (x : Nat) : isInt32 (toInt32 x) := by
  unfold isInt32 INT32_MIN INT32_MAX toInt32
  split <;> omega

theorem ofInt32_lt (a : Int) : ofInt32 a < 4294967296 := by
  unfold ofInt32; omega

theorem ofInt32_toInt32 (x : Nat) : ofInt32 (toInt32 x) = x % 4294967296 := by
  unfold toInt32 ofInt32
  split <;> omega

theorem toInt32_ofInt32_emod (p : Int) :
    toInt32 (ofInt32 p) % 4294967296 = p % 4294967296 := by
  unfold toInt32 ofInt32
  split <;> omega

theorem boxValue_eq (type src : Nat) :
    boxValue type src = 140737488355328 * JSVAL_TYPE_TO_TAG type + src % 4294967296 := by
  have h : src % 4294967296 < 2 ^ 47 := by omega
  have := Nat.mul_add_lt_is_or h (JSVAL_TYPE_TO_TAG type)
  unfold boxValue JSVAL_TAG_SHIFT
  rw [Nat.shiftLeft_eq, Nat.mul_comm, ← this]

theorem unboxInt32_boxValue (type src : Nat) :
    unboxInt32 (boxValue type src) = src % 4294967296 := by
  rw [boxValue_eq]; unfold unboxInt32; omega

theorem unboxInt32_boxInt32 (a : Int) : unboxInt32 (boxInt32 a) = ofInt32 a := by
  unfold boxInt32
  rw [unboxInt32_boxValue]
  have := ofInt32_lt a
  omega

theorem isInt32Tagged_boxValue (src : Nat) :
    isInt32Tagged (boxValue JSVAL_TYPE_INT32 src) = true := by
  unfold isInt32Tagged
  rw [boxValue_eq, Nat.shiftRight_eq_div_pow]
  simp only [JSVAL_TAG_SHIFT, beq_iff_eq]
  omega

theorem isInt32Tagged_boxInt32 (a : Int) : isInt32Tagged (boxInt32 a) = true :=
  isInt32Tagged_boxValue _

theorem toInt32_unbox_box {a : Int} (h : isInt32 a) :
    toInt32 (unboxInt32 (boxInt32 a)) = a := by
  rw [unboxInt32_boxInt32, toInt32_ofInt32 h]

theorem boxValue_ofInt32 (a : Int) : boxValue JSVAL_TYPE_INT32 (ofInt32 a) = boxInt32 a := rfl

theorem toInt32_Imm32_zero : toInt32 (Imm32 0) = 0 := by decide

/-! ## The type guard -/

/-- C1: for every operator, every `allowDouble_` and every pair of boxed
operands, if the left or the right operand is not tagged as an integer the
stub takes the bail-out edge, with the registers exactly as on entry (no
computation has happened). -/
theorem guard_mismatch_bails (undef : Nat → Nat → Nat) (op_ : JSOp) (allowDouble_ : Bool)
    (s : Regs) (x y : Nat) (h : isInt32Tagged x = false ∨ isInt32Tagged y = false) :
    runStub undef op_ allowDouble_ s x y = Outcome.failure { s with R0 := x, R1 := y } ∧
      (runStub undef op_ allowDouble_ s x y).bailed = true ∧
      (runStub undef op_ allowDouble_ s x y).result = none := by
  have key : runStub undef op_ allowDouble_ s x y
      = Outcome.failure { s with R0 := x, R1 := y } := by
    unfold runStub generateStubCode
    rcases h with h | h
    · simp [branchTestInt32, h]
    · by_cases hx : isInt32Tagged x = true
      · simp [branchTestInt32, h, hx]
      · simp [branchTestInt32, hx]
  rw [key]
  exact ⟨rfl, rfl, rfl⟩

/-- Witness for C1: a left operand that is the double `0.0` (tag 0) with an
integer right operand bails under `JSOP_ADD`. -/
theorem guard_mismatch_bails_witness :
    (isInt32Tagged 0 = false ∨ isInt32Tagged (boxInt32 1) = false) ∧
    (runStub undefZero JSOp.JSOP_ADD false zeroRegs 0 (boxInt32 1)
        = Outcome.failure { zeroRegs with R0 := 0, R1 := boxInt32 1 } ∧
      (runStub undefZero JSOp.JSOP_ADD false zeroRegs 0 (boxInt32 1)).bailed = true ∧
      (runStub undefZero JSOp.JSOP_ADD false zeroRegs 0 (boxInt32 1)).result = none) :=
  ⟨Or.inl (by decide),
   guard_mismatch_bails undefZero JSOp.JSOP_ADD false zeroRegs 0 (boxInt32 1)
     (Or.inl (by decide))⟩

/-! ## Add and Sub -/

/-- C2: for 32-bit signed `a`, `b` the Add stub bails exactly when `a + b` is
outside the signed 32-bit range and otherwise returns the integer-tagged
`a + b`; the Sub stub bails exactly when `a - b` is outside the range and
otherwise returns the integer-tagged `a - b`. -/
theorem add_sub_exact (undef : Nat → Nat → Nat) (allowDouble_ : Bool) (s : Regs)
    (a b : Int) (ha : isInt32 a) (hb : isInt32 b) :
    ((runStub undef JSOp.JSOP_ADD allowDouble_ s (boxInt32 a) (boxInt32 b)).bailed = true
        ↔ ¬ isInt32 (a + b)) ∧
    (isInt32 (a + b) →
      (runStub undef JSOp.JSOP_ADD allowDouble_ s (boxInt32 a) (boxInt32 b)).result
        = some (boxInt32 (a + b))) ∧
    ((runStub undef JSOp.JSOP_SUB allowDouble_ s (boxInt32 a) (boxInt32 b)).bailed = true
        ↔ ¬ isInt32 (a - b)) ∧
    (isInt32 (a - b) →
      (runStub undef JSOp.JSOP_SUB allowDouble_ s (boxInt32 a) (boxInt32 b)).result
        = some (boxInt32 (a - b))) := by
  have hA : ∀ c : Int, (c < INT32_MIN ∨ INT32_MAX < c) ↔ ¬ isInt32 c := by
    intro c; unfold isInt32; omega
  refine ⟨?_, ?_, ?_, ?_⟩
  · by_cases hs : isInt32 (a + b)
    · have hs2 : ¬ (a + b < INT32_MIN ∨ INT32_MAX < a + b) := by rw [hA]; simpa using hs
      simp [runStub, generateStubCode, branchTestInt32, isInt32Tagged_boxInt32,
        ma_addTestOverflow, toInt32_unbox_box ha, toInt32_unbox_box hb, hs, hs2,
        Outcome.bailed]
    · have hs2 : (a + b < INT32_MIN ∨ INT32_MAX < a + b) := by rw [hA]; exact hs
      simp [runStub, generateStubCode, branchTestInt32, isInt32Tagged_boxInt32,
        ma_addTestOverflow, toInt32_unbox_box ha, toInt32_unbox_box hb, hs, hs2,
        Outcome.bailed]
  · intro hs
    have hs2 : ¬ (a + b < INT32_MIN ∨ INT32_MAX < a + b) := by rw [hA]; simpa using hs
    simp [runStub, generateStubCode, branchTestInt32, isInt32Tagged_boxInt32,
      ma_addTestOverflow, toInt32_unbox_box ha, toInt32_unbox_box hb, hs2,
      Outcome.result, boxValue_ofInt32]
  · by_cases hs : isInt32 (a - b)
    · have hs2 : ¬ (a - b < INT32_MIN ∨ INT32_MAX < a - b) := by rw [hA]; simpa using hs
      simp [runStub, generateStubCode, branchTestInt32, isInt32Tagged_boxInt32,
        ma_subTestOverflow, toInt32_unbox_box ha, toInt32_unbox_box hb, hs, hs2,
        Outcome.bailed]
    · have hs2 : (a - b < INT32_MIN ∨ INT32_MAX < a - b) := by rw [hA]; exact hs
      simp [runStub, generateStubCode, branchTestInt32, isInt32Tagged_boxInt32,
        ma_subTestOverflow, toInt32_unbox_box ha, toInt32_unbox_box hb, hs, hs2,
        Outcome.bailed]
  · intro hs
    have hs2 : ¬ (a - b < INT32_MIN ∨ INT32_MAX < a - b) := by rw [hA]; simpa using hs
    simp [runStub, generateStubCode, branchTestInt32, isInt32Tagged_boxInt32,
      ma_subTestOverflow, toInt32_unbox_box ha, toInt32_unbox_box hb, hs2,
      Outcome.result, boxValue_ofInt32]

/-- Witness for C2: `Add(2, 3)` does not bail and returns the boxed integer 5
(and `Sub(2, 3)` returns the boxed integer -1). -/
theorem add_sub_exact_witness :
    isInt32 2 ∧ isInt32 3 ∧
    (((runStub undefZero JSOp.JSOP_ADD false zeroRegs (boxInt32 2) (boxInt32 3)).bailed = true
        ↔ ¬ isInt32 (2 + 3)) ∧
    (isInt32 (2 + 3) →
      (runStub undefZero JSOp.JSOP_ADD false zeroRegs (boxInt32 2) (boxInt32 3)).result
        = some (boxInt32 (2 + 3))) ∧
    ((runStub undefZero JSOp.JSOP_SUB false zeroRegs (boxInt32 2) (boxInt32 3)).bailed = true
        ↔ ¬ isInt32 (2 - 3)) ∧
    (isInt32 (2 - 3) →
      (runStub undefZero JSOp.JSOP_SUB false zeroRegs (boxInt32 2) (boxInt32 3)).result
        = some (boxInt32 (2 - 3)))) :=
  ⟨by decide, by decide,
   add_sub_exact undefZero false zeroRegs 2 3 (by decide) (by decide)⟩

/-! ## Mul -/

theorem ofInt32_zero : ofInt32 0 = 0 := by decide

theorem toInt32_zero : toInt32 0 = 0 := by decide

theorem xor_sign_of_mul_eq_zero {a b : Int} (ha : isInt32 a) (hb : isInt32 b)
    (hz : a * b = 0) :
    toInt32 (ofInt32 a ^^^ ofInt32 b) < 0 ↔ ((a < 0 ∧ 0 ≤ b) ∨ (0 ≤ a ∧ b < 0)) := by
  rcases Int.mul_eq_zero.mp hz with h0 | h0
  · rw [h0, ofInt32_zero, Nat.zero_xor, toInt32_ofInt32 hb]; omega
  · rw [h0, ofInt32_zero, Nat.xor_zero, toInt32_ofInt32 ha]; omega

/-- C3: for 32-bit signed `a`, `b` the Mul stub bails if and only if `a * b`
overflows the signed 32-bit range, or the product is 0 and exactly one of the
operands is negative (the true result is negative zero); in every other case
it returns the integer-tagged `a * b`. -/
theorem mul_exact (undef : Nat → Nat → Nat) (allowDouble_ : Bool) (s : Regs)
    (a b : Int) (ha : isInt32 a) (hb : isInt32 b) :
    ((runStub undef JSOp.JSOP_MUL allowDouble_ s (boxInt32 a) (boxInt32 b)).bailed = true
        ↔ (¬ isInt32 (a * b) ∨ (a * b = 0 ∧ ((a < 0 ∧ 0 ≤ b) ∨ (0 ≤ a ∧ b < 0))))) ∧
    (¬ (¬ isInt32 (a * b) ∨ (a * b = 0 ∧ ((a < 0 ∧ 0 ≤ b) ∨ (0 ≤ a ∧ b < 0)))) →
      (runStub undef JSOp.JSOP_MUL allowDouble_ s (boxInt32 a) (boxInt32 b)).result
        = some (boxInt32 (a * b))) := by
  have hA : ∀ c : Int, (c < INT32_MIN ∨ INT32_MAX < c) ↔ ¬ isInt32 c := by
    intro c; unfold isInt32; omega
  simp only [runStub, generateStubCode, branchTestInt32, isInt32Tagged_boxInt32,
    ma_mul_branch_overflow, unboxInt32_boxInt32, toInt32_ofInt32 ha, toInt32_ofInt32 hb,
    toInt32_Imm32_zero, ma_b, as_xor, boxValue_ofInt32, hA]
  by_cases hs : isInt32 (a * b)
  · rw [toInt32_ofInt32 hs]
    by_cases hz : a * b = 0
    · have hx := xor_sign_of_mul_eq_zero ha hb hz
      have h0 : isInt32 0 := by decide
      by_cases hd : ((a < 0 ∧ 0 ≤ b) ∨ (0 ≤ a ∧ b < 0))
      · simp [hs, hz, hd, hx, h0, Outcome.bailed, Outcome.result]
      · simp [hs, hz, hd, hx, h0, Outcome.bailed, Outcome.result]
    · simp [hs, hz, Outcome.bailed, Outcome.result]
  · simp [hs, Outcome.bailed, Outcome.result]

/-- Witness for C3: `Mul(0, -1)` bails (the true result is negative zero). -/
theorem mul_exact_witness :
    isInt32 0 ∧ isInt32 (-1) ∧
    (((runStub undefZero JSOp.JSOP_MUL false zeroRegs (boxInt32 0) (boxInt32 (-1))).bailed = true
        ↔ (¬ isInt32 (0 * -1) ∨
            (0 * -1 = 0 ∧ (((0 : Int) < 0 ∧ (0 : Int) ≤ -1) ∨ ((0 : Int) ≤ 0 ∧ (-1 : Int) < 0))))) ∧
    (¬ (¬ isInt32 (0 * -1) ∨
          (0 * -1 = 0 ∧ (((0 : Int) < 0 ∧ (0 : Int) ≤ -1) ∨ ((0 : Int) ≤ 0 ∧ (-1 : Int) < 0)))) →
      (runStub undefZero JSOp.JSOP_MUL false zeroRegs (boxInt32 0) (boxInt32 (-1))).result
        = some (boxInt32 (0 * -1)))) ∧
    (runStub undefZero JSOp.JSOP_MUL false zeroRegs (boxInt32 0) (boxInt32 (-1))).bailed = true :=
  ⟨by decide, by decide,
   mul_exact undefZero false zeroRegs 0 (-1) (by decide) (by decide), by decide⟩

/-! ## Div and Mod: facts about the truncating division -/

theorem natAbs_tmod_lt (a b : Int) (hb : b ≠ 0) : (a.tmod b).natAbs < b.natAbs := by
  rcases a with m | m <;> rcases b with n | n
  · simp only [Int.ofNat_eq_coe, Int.tmod, Int.natAbs_ofNat] at *
    exact Nat.mod_lt _ (by omega)
  · simp only [Int.ofNat_eq_coe, Int.tmod, Int.natAbs_ofNat, Int.natAbs_negSucc] at *
    exact Nat.mod_lt _ (by omega)
  · simp only [Int.ofNat_eq_coe, Int.tmod, Int.natAbs_ofNat, Int.natAbs_neg] at *
    exact Nat.mod_lt _ (by omega)
  · simp only [Int.tmod, Int.natAbs_ofNat, Int.natAbs_neg, Int.natAbs_negSucc] at *
    exact Nat.mod_lt _ (by omega)

theorem tdiv_isInt32 {a b : Int} (ha : isInt32 a) (hb0 : b ≠ 0)
    (hov : ¬ (a = INT32_MIN ∧ b = -1)) : isInt32 (a.tdiv b) := by
  have h : (a.tdiv b).natAbs = a.natAbs / b.natAbs := Int.natAbs_tdiv a b
  unfold isInt32 INT32_MIN INT32_MAX at *
  by_cases h1 : b.natAbs = 1
  · have hb1 : b = 1 ∨ b = -1 := by omega
    rcases hb1 with hb1 | hb1
    · subst hb1; rw [Int.tdiv_one]; exact ha
    · subst hb1
      rw [show (-1 : Int) = -(1 : Int) from rfl, Int.tdiv_neg, Int.tdiv_one]
      omega
  · have h2 : 2 ≤ b.natAbs := by omega
    have h3 : a.natAbs / b.natAbs ≤ a.natAbs / 2 := Nat.div_le_div_left h2 (by omega)
    omega

theorem mullw_check {a b : Int} (ha : isInt32 a) (hb : isInt32 b) (hb0 : b ≠ 0) :
    toInt32 (ofInt32 (a.tdiv b * b)) = a ↔ a.tmod b = 0 := by
  have h1 := Int.tdiv_add_tmod' a b
  have h2 := toInt32_ofInt32_emod (a.tdiv b * b)
  have h3 := natAbs_tmod_lt a b hb0
  have h4 := isInt32_toInt32 (ofInt32 (a.tdiv b * b))
  unfold isInt32 INT32_MIN INT32_MAX at *
  generalize a.tdiv b * b = p at *
  generalize toInt32 (ofInt32 p) = w at *
  generalize a.tmod b = r at *
  constructor
  · intro h; omega
  · intro h; omega

theorem as_divwo_ofInt32 (undef : Nat → Nat → Nat) {a b : Int} (ha : isInt32 a)
    (hb : isInt32 b) (hb0 : b ≠ 0) (hov : ¬ (a = INT32_MIN ∧ b = -1)) :
    as_divwo undef (ofInt32 a) (ofInt32 b) = (ofInt32 (a.tdiv b), false) := by
  unfold as_divwo
  rw [toInt32_ofInt32 ha, toInt32_ofInt32 hb, if_neg]
  rintro (h | h)
  · exact hb0 h
  · exact hov h

theorem bailed_iff_result_none (o : Outcome) : o.bailed = true ↔ o.result = none := by
  cases o <;> simp [Outcome.bailed, Outcome.result]

/-- The Div stub away from the two overflow inputs of `divwo`: it bails on
`0 / negative` and on a non-zero remainder, and otherwise returns the boxed
truncating quotient. -/
theorem div_result (undef : Nat → Nat → Nat) (allowDouble_ : Bool) (s : Regs)
    {a b : Int} (ha : isInt32 a) (hb : isInt32 b) (hb0 : b ≠ 0)
    (hov : ¬ (a = INT32_MIN ∧ b = -1)) :
    (runStub undef JSOp.JSOP_DIV allowDouble_ s (boxInt32 a) (boxInt32 b)).result
      = if (a = 0 ∧ b < 0) ∨ a.tmod b ≠ 0 then none else some (boxInt32 (a.tdiv b)) := by
  have hq := tdiv_isInt32 ha hb0 hov
  have hm := mullw_check ha hb hb0
  simp only [runStub, generateStubCode, branchTestInt32, isInt32Tagged_boxInt32,
    unboxInt32_boxInt32, ma_b, toInt32_ofInt32 ha, toInt32_ofInt32 hb, toInt32_Imm32_zero,
    as_divwo_ofInt32 undef ha hb hb0 hov, as_mullw, tagValue, boxValue_ofInt32,
    toInt32_ofInt32 hq]
  by_cases h1 : a = 0 ∧ b < 0
  · simp [h1, Outcome.result]
  · by_cases h2 : a.tmod b = 0
    · simp [h1, h2, hm, Outcome.result]
    · simp [h1, h2, hm, Outcome.result]

theorem not_bailed_of_result_some {o : Outcome} {v : Nat} (h : o.result = some v) :
    o.bailed = false := by
  cases o <;> simp_all [Outcome.bailed, Outcome.result]

/-! ## Div -/

/-- C4: for 32-bit signed `a`, `b` with `b ≠ 0`, `b` dividing `a` exactly, not
(`a = 0` and `b < 0`) and `(a, b) ≠ (INT_MIN, -1)`, the Div stub does not bail
and returns the integer-tagged exact quotient `a / b`. -/
theorem div_exact_returns (undef : Nat → Nat → Nat) (allowDouble_ : Bool) (s : Regs)
    (a b : Int) (ha : isInt32 a) (hb : isInt32 b) (hb0 : b ≠ 0) (hdvd : b ∣ a)
    (hnz : ¬ (a = 0 ∧ b < 0)) (hov : ¬ (a = INT32_MIN ∧ b = -1)) :
    (runStub undef JSOp.JSOP_DIV allowDouble_ s (boxInt32 a) (boxInt32 b)).bailed = false ∧
    (runStub undef JSOp.JSOP_DIV allowDouble_ s (boxInt32 a) (boxInt32 b)).result
      = some (boxInt32 (a / b)) ∧
    a / b * b = a := by
  have hr := div_result undef allowDouble_ s ha hb hb0 hov
  have ht : a.tmod b = 0 := Int.tmod_eq_zero_of_dvd hdvd
  rw [if_neg (by simp [hnz, ht]), Int.tdiv_eq_ediv_of_dvd hdvd] at hr
  exact ⟨not_bailed_of_result_some hr, hr, Int.ediv_mul_cancel hdvd⟩

/-- Witness for C4: `Div(8, 2)` returns the boxed integer 4. -/
theorem div_exact_returns_witness :
    (isInt32 8 ∧ isInt32 2 ∧ (2 : Int) ≠ 0 ∧ (2 : Int) ∣ 8) ∧
    ((runStub undefZero JSOp.JSOP_DIV false zeroRegs (boxInt32 8) (boxInt32 2)).bailed = false ∧
     (runStub undefZero JSOp.JSOP_DIV false zeroRegs (boxInt32 8) (boxInt32 2)).result
       = some (boxInt32 (8 / 2)) ∧
     (8 : Int) / 2 * 2 = 8) ∧
    (runStub undefZero JSOp.JSOP_DIV false zeroRegs (boxInt32 8) (boxInt32 2)).result
       = some (boxInt32 4) :=
  ⟨⟨by decide, by decide, by decide, Dvd.intro 4 rfl⟩,
   div_exact_returns undefZero false zeroRegs 8 2 (by decide) (by decide) (by decide)
     (Dvd.intro 4 rfl) (by decide) (by decide),
   by decide⟩

/-- C5: for 32-bit signed `a`, `b` with `b ≠ 0` and a non-zero truncating
remainder (`b` does not divide `a`), the Div stub bails. -/
theorem div_inexact_bails (undef : Nat → Nat → Nat) (allowDouble_ : Bool) (s : Regs)
    (a b : Int) (ha : isInt32 a) (hb : isInt32 b) (hb0 : b ≠ 0) (hrem : a.tmod b ≠ 0) :
    (runStub undef JSOp.JSOP_DIV allowDouble_ s (boxInt32 a) (boxInt32 b)).bailed = true := by
  have hov : ¬ (a = INT32_MIN ∧ b = -1) := by
    rintro ⟨h1, h2⟩
    subst h1 h2
    exact hrem (by decide)
  rw [bailed_iff_result_none, div_result undef allowDouble_ s ha hb hb0 hov,
    if_pos (Or.inr hrem)]

/-- Witness for C5: `Div(7, 2)` bails. -/
theorem div_inexact_bails_witness :
    (isInt32 7 ∧ isInt32 2 ∧ (2 : Int) ≠ 0 ∧ (7 : Int).tmod 2 ≠ 0) ∧
    (runStub undefZero JSOp.JSOP_DIV false zeroRegs (boxInt32 7) (boxInt32 2)).bailed = true :=
  ⟨⟨by decide, by decide, by decide, by decide⟩,
   div_inexact_bails undefZero false zeroRegs 7 2 (by decide) (by decide) (by decide)
     (by decide)⟩

/-- C6: for every 32-bit signed `b < 0` the Div stub applied to `(0, b)` bails
(the true result is negative zero). -/
theorem div_zero_by_negative_bails (undef : Nat → Nat → Nat) (allowDouble_ : Bool)
    (s : Regs) (b : Int) (hb : isInt32 b) (hneg : b < 0) :
    (runStub undef JSOp.JSOP_DIV allowDouble_ s (boxInt32 0) (boxInt32 b)).bailed = true := by
  have hb0 : b ≠ 0 := by omega
  have hov : ¬ ((0 : Int) = INT32_MIN ∧ b = -1) := by
    rintro ⟨h1, _⟩
    exact absurd h1 (by decide)
  rw [bailed_iff_result_none,
    div_result undef allowDouble_ s (show isInt32 0 by decide) hb hb0 hov,
    if_pos (Or.inl ⟨rfl, hneg⟩)]

/-- Witness for C6: `Div(0, -1)` bails. -/
theorem div_zero_by_negative_bails_witness :
    (isInt32 (-1) ∧ (-1 : Int) < 0) ∧
    (runStub undefZero JSOp.JSOP_DIV false zeroRegs (boxInt32 0) (boxInt32 (-1))).bailed = true :=
  ⟨⟨by decide, by decide⟩,
   div_zero_by_negative_bails undefZero false zeroRegs (-1) (by decide) (by decide)⟩

/-! ## Div and Mod on the overflow inputs of `divwo`

`divwo` reports `x / 0` and `INT_MIN / -1` in OV, but the emitted code has no
branch on OV: what happens next is decided by the word left in the quotient
register. -/

theorem ofInt32_INT32_MIN : ofInt32 INT32_MIN = 2147483648 := by decide

theorem ofInt32_neg_one : ofInt32 (-1) = 4294967295 := by decide

theorem as_divwo_overflow (undef : Nat → Nat → Nat) (ra rb : Nat)
    (h : toInt32 rb = 0 ∨ (toInt32 ra = INT32_MIN ∧ toInt32 rb = -1)) :
    as_divwo undef ra rb = (undef ra rb % 4294967296, true) := by
  unfold as_divwo
  rw [if_pos h]

theorem boxValue_mod (type src : Nat) :
    boxValue type (src % 4294967296) = boxValue type src := by
  unfold boxValue
  rw [Nat.mod_mod]

/-- The Div stub on a zero divisor: it bails for a non-zero dividend and
returns the tagged undefined quotient for `0 / 0`. -/
theorem div_by_zero_result (undef : Nat → Nat → Nat) (allowDouble_ : Bool) (s : Regs)
    (a b : Int) (ha : isInt32 a) (hb0 : b = 0) :
    (runStub undef JSOp.JSOP_DIV allowDouble_ s (boxInt32 a) (boxInt32 b)).result
      = if a = 0 then some (boxValue JSVAL_TYPE_INT32 (undef (ofInt32 a) (ofInt32 b)))
        else none := by
  have hb : isInt32 b := by rw [hb0]; decide
  have hd := as_divwo_overflow undef (ofInt32 a) (ofInt32 b)
    (Or.inl (by rw [toInt32_ofInt32 hb]; exact hb0))
  have hmul : ∀ w : Int, w * b = 0 := fun w => by rw [hb0, Int.mul_zero]
  have hlt : ¬ b < 0 := by omega
  simp only [runStub, generateStubCode, branchTestInt32, isInt32Tagged_boxInt32,
    unboxInt32_boxInt32, ma_b, toInt32_ofInt32 ha, toInt32_ofInt32 hb, toInt32_Imm32_zero,
    hd, as_mullw, tagValue, boxValue_mod, hmul, ofInt32_zero, toInt32_zero]
  by_cases h : a = 0
  · simp [h, hlt, Outcome.result]
  · have h2 : ¬ (0 = a) := fun x => h x.symm
    simp [h, h2, Outcome.result]

/-- The Mod stub on a zero divisor: it bails for a negative dividend and
returns the dividend itself otherwise. -/
theorem mod_by_zero_result (undef : Nat → Nat → Nat) (allowDouble_ : Bool) (s : Regs)
    (a b : Int) (ha : isInt32 a) (hb0 : b = 0) :
    (runStub undef JSOp.JSOP_MOD allowDouble_ s (boxInt32 a) (boxInt32 b)).result
      = if a < 0 then none else some (boxInt32 a) := by
  have hb : isInt32 b := by rw [hb0]; decide
  have hd := as_divwo_overflow undef (ofInt32 a) (ofInt32 b)
    (Or.inl (by rw [toInt32_ofInt32 hb]; exact hb0))
  have hmul : ∀ w : Int, w * b = 0 := fun w => by rw [hb0, Int.mul_zero]
  have hlt : ¬ b < 0 := by omega
  simp only [runStub, generateStubCode, branchTestInt32, isInt32Tagged_boxInt32,
    unboxInt32_boxInt32, ma_b, toInt32_ofInt32 ha, toInt32_ofInt32 hb, toInt32_Imm32_zero,
    hd, as_mullw, subf, tagValue, hmul, ofInt32_zero, toInt32_zero, Int.sub_zero,
    boxValue_ofInt32]
  by_cases h : a < 0
  · have h2 : ¬ a = 0 := by omega
    simp [h, h2, Outcome.result]
  · simp [h, hlt, Outcome.result]

theorem neg_quotient_check (u : Nat) :
    toInt32 (ofInt32 (toInt32 (u % 4294967296) * -1)) = INT32_MIN
      ↔ u % 4294967296 = 2147483648 := by
  have hw : u % 4294967296 < 4294967296 := Nat.mod_lt _ (by omega)
  generalize u % 4294967296 = w at hw
  constructor
  · intro h
    simp only [toInt32, ofInt32, INT32_MIN] at h
    split_ifs at h <;> omega
  · intro h; subst h; decide

/-- The Div stub on `(INT_MIN, -1)`: the quotient register is undefined, and
the remainder test lets it through exactly when that word is `0x80000000`. -/
theorem div_INT32_MIN_neg_one_result (undef : Nat → Nat → Nat) (allowDouble_ : Bool)
    (s : Regs) (a b : Int) (ha0 : a = INT32_MIN) (hb1 : b = -1) :
    (runStub undef JSOp.JSOP_DIV allowDouble_ s (boxInt32 a) (boxInt32 b)).result
      = if undef (ofInt32 a) (ofInt32 b) % 4294967296 = 2147483648
        then some (boxValue JSVAL_TYPE_INT32 (undef (ofInt32 a) (ofInt32 b)))
        else none := by
  have ha : isInt32 a := by rw [ha0]; decide
  have hb : isInt32 b := by rw [hb1]; decide
  have hd := as_divwo_overflow undef (ofInt32 a) (ofInt32 b)
    (Or.inr ⟨by rw [toInt32_ofInt32 ha]; exact ha0, by rw [toInt32_ofInt32 hb]; exact hb1⟩)
  have hk : toInt32 (ofInt32 (toInt32 (undef (ofInt32 a) (ofInt32 b) % 4294967296) * b)) = a
      ↔ undef (ofInt32 a) (ofInt32 b) % 4294967296 = 2147483648 := by
    rw [hb1, ha0]; exact neg_quotient_check _
  have hne : a ≠ 0 := by rw [ha0]; decide
  simp only [runStub, generateStubCode, branchTestInt32, isInt32Tagged_boxInt32,
    unboxInt32_boxInt32, ma_b, toInt32_ofInt32 ha, toInt32_ofInt32 hb, toInt32_Imm32_zero,
    hd, as_mullw, tagValue, boxValue_mod]
  by_cases h : undef (ofInt32 a) (ofInt32 b) % 4294967296 = 2147483648
  · rw [if_pos h]
    simp [hk.mpr h, hne, Outcome.result]
  · rw [if_neg h]
    simp [mt hk.mp h, hne, Outcome.result]

/-- C7: evaluation of the Div stub at `(0, 0)`.  A zero divisor should always
bail; for the dividend 0 the stub instead returns the undefined quotient of
`divwo`, tagged as an integer (OV is set and never tested). -/
theorem div_zero_by_zero_returns (undef : Nat → Nat → Nat) (allowDouble_ : Bool)
    (s : Regs) :
    (runStub undef JSOp.JSOP_DIV allowDouble_ s (boxInt32 0) (boxInt32 0)).bailed = false ∧
    (runStub undef JSOp.JSOP_DIV allowDouble_ s (boxInt32 0) (boxInt32 0)).result
      = some (boxValue JSVAL_TYPE_INT32 (undef (ofInt32 0) (ofInt32 0))) := by
  have h := div_by_zero_result undef allowDouble_ s 0 0 (by decide) rfl
  rw [if_pos rfl] at h
  exact ⟨not_bailed_of_result_some h, h⟩

/-- C8: evaluation of the Div stub at `(INT_MIN, -1)`.  The overflow should
always bail; the stub bails exactly when the undefined quotient word left by
`divwo` is not `0x80000000`, and with a divider that leaves the dividend
there it returns the integer `INT_MIN`. -/
theorem div_INT32_MIN_neg_one_depends (undef : Nat → Nat → Nat) (allowDouble_ : Bool)
    (s : Regs) :
    ((runStub undef JSOp.JSOP_DIV allowDouble_ s (boxInt32 INT32_MIN) (boxInt32 (-1))).bailed
        = true
      ↔ undef (ofInt32 INT32_MIN) (ofInt32 (-1)) % 4294967296 ≠ 2147483648) ∧
    (runStub undefDividend JSOp.JSOP_DIV allowDouble_ s (boxInt32 INT32_MIN)
        (boxInt32 (-1))).result = some (boxInt32 INT32_MIN) := by
  constructor
  · rw [bailed_iff_result_none,
      div_INT32_MIN_neg_one_result undef allowDouble_ s INT32_MIN (-1) rfl rfl]
    by_cases h : undef (ofInt32 INT32_MIN) (ofInt32 (-1)) % 4294967296 = 2147483648
    · simp [h]
    · simp [h]
  · rw [div_INT32_MIN_neg_one_result undefDividend allowDouble_ s INT32_MIN (-1) rfl rfl,
      if_pos (by decide)]
    rfl

/-! ## Mod -/

theorem mullw_zero_check {a b : Int} (ha : isInt32 a) (hb : isInt32 b) (hb0 : b ≠ 0) :
    toInt32 (ofInt32 (a.tdiv b * b)) = 0 ↔ a.tdiv b * b = 0 := by
  have h1 := Int.tdiv_add_tmod' a b
  have h2 := toInt32_ofInt32_emod (a.tdiv b * b)
  have h3 := natAbs_tmod_lt a b hb0
  have h4 := isInt32_toInt32 (ofInt32 (a.tdiv b * b))
  unfold isInt32 INT32_MIN INT32_MAX at *
  generalize a.tdiv b * b = p at *
  generalize toInt32 (ofInt32 p) = w at *
  generalize a.tmod b = r at *
  constructor
  · intro h; omega
  · intro h; omega

theorem subf_remainder (a b : Int) :
    ofInt32 (a - toInt32 (ofInt32 (a.tdiv b * b))) = ofInt32 (a.tmod b) := by
  have h1 := Int.tdiv_add_tmod' a b
  have h2 := toInt32_ofInt32_emod (a.tdiv b * b)
  generalize a.tdiv b * b = p at *
  generalize toInt32 (ofInt32 p) = w at *
  generalize a.tmod b = r at *
  unfold ofInt32
  congr 1
  omega

/-- The Mod stub away from the two overflow inputs of `divwo`: it bails on
`0 % negative` and when `quotient * b` is zero with a negative dividend;
otherwise it returns the boxed truncating remainder. -/
theorem mod_result (undef : Nat → Nat → Nat) (allowDouble_ : Bool) (s : Regs)
    {a b : Int} (ha : isInt32 a) (hb : isInt32 b) (hb0 : b ≠ 0)
    (hov : ¬ (a = INT32_MIN ∧ b = -1)) :
    (runStub undef JSOp.JSOP_MOD allowDouble_ s (boxInt32 a) (boxInt32 b)).result
      = if (a = 0 ∧ b < 0) ∨ (a.tdiv b * b = 0 ∧ a < 0) then none
        else some (boxInt32 (a.tmod b)) := by
  have hq := tdiv_isInt32 ha hb0 hov
  have hm := mullw_zero_check ha hb hb0
  simp only [runStub, generateStubCode, branchTestInt32, isInt32Tagged_boxInt32,
    unboxInt32_boxInt32, ma_b, toInt32_ofInt32 ha, toInt32_ofInt32 hb, toInt32_Imm32_zero,
    as_divwo_ofInt32 undef ha hb hb0 hov, as_mullw, subf, tagValue, subf_remainder,
    boxValue_ofInt32, toInt32_ofInt32 hq]
  by_cases h1 : a = 0 ∧ b < 0
  · simp [h1, Outcome.result]
  · by_cases h2 : a.tdiv b * b = 0
    · by_cases h3 : a < 0
      · simp [h1, h2, h3, ofInt32_zero, toInt32_zero, Outcome.result]
      · simp [h1, h2, h3, ofInt32_zero, toInt32_zero, Outcome.result]
    · simp [h1, h2, mt hm.mp h2, Outcome.result]

/-- C9: evaluation of the Mod stub at `(-4, 2)`.  The true result is negative
zero, so the stub should bail; it tests `quotient * b` instead of the
remainder, does not bail, and returns the boxed integer 0. -/
theorem mod_neg_four_by_two_returns_zero (undef : Nat → Nat → Nat) (allowDouble_ : Bool)
    (s : Regs) :
    (runStub undef JSOp.JSOP_MOD allowDouble_ s (boxInt32 (-4)) (boxInt32 2)).bailed = false ∧
    (runStub undef JSOp.JSOP_MOD allowDouble_ s (boxInt32 (-4)) (boxInt32 2)).result
      = some (boxInt32 0) := by
  have h := mod_result undef allowDouble_ s (show isInt32 (-4) by decide)
    (show isInt32 2 by decide) (show (2 : Int) ≠ 0 by decide) (by decide)
  rw [if_neg (by decide)] at h
  exact ⟨not_bailed_of_result_some h, h⟩

theorem neg_quotient_zero_check (u : Nat) :
    toInt32 (ofInt32 (toInt32 (u % 4294967296) * -1)) = 0 ↔ u % 4294967296 = 0 := by
  have hw : u % 4294967296 < 4294967296 := Nat.mod_lt _ (by omega)
  generalize u % 4294967296 = w at hw
  constructor
  · intro h
    simp only [toInt32, ofInt32] at h
    split_ifs at h <;> omega
  · intro h; subst h; decide

theorem subf_neg_quotient (a : Int) (u : Nat) :
    ofInt32 (a - toInt32 (ofInt32 (toInt32 (u % 4294967296) * -1)))
      = ofInt32 (a + toInt32 (u % 4294967296)) := by
  have h2 := toInt32_ofInt32_emod (toInt32 (u % 4294967296) * -1)
  generalize toInt32 (u % 4294967296) = q at *
  generalize toInt32 (ofInt32 (q * -1)) = w at *
  unfold ofInt32
  congr 1
  omega

/-- The Mod stub on `(INT_MIN, -1)`: it bails exactly when the undefined
quotient word is zero, and otherwise returns `INT_MIN` plus that word. -/
theorem mod_INT32_MIN_neg_one_result (undef : Nat → Nat → Nat) (allowDouble_ : Bool)
    (s : Regs) (a b : Int) (ha0 : a = INT32_MIN) (hb1 : b = -1) :
    (runStub undef JSOp.JSOP_MOD allowDouble_ s (boxInt32 a) (boxInt32 b)).result
      = if undef (ofInt32 a) (ofInt32 b) % 4294967296 = 0 then none
        else some (boxInt32 (a + toInt32 (undef (ofInt32 a) (ofInt32 b) % 4294967296))) := by
  have ha : isInt32 a := by rw [ha0]; decide
  have hb : isInt32 b := by rw [hb1]; decide
  have hd := as_divwo_overflow undef (ofInt32 a) (ofInt32 b)
    (Or.inr ⟨by rw [toInt32_ofInt32 ha]; exact ha0, by rw [toInt32_ofInt32 hb]; exact hb1⟩)
  have hk : toInt32 (ofInt32 (toInt32 (undef (ofInt32 a) (ofInt32 b) % 4294967296) * b)) = 0
      ↔ undef (ofInt32 a) (ofInt32 b) % 4294967296 = 0 := by
    rw [hb1]; exact neg_quotient_zero_check _
  have hsub : ofInt32 (a - toInt32 (ofInt32
        (toInt32 (undef (ofInt32 a) (ofInt32 b) % 4294967296) * b)))
      = ofInt32 (a + toInt32 (undef (ofInt32 a) (ofInt32 b) % 4294967296)) := by
    rw [hb1]; exact subf_neg_quotient _ _
  have hne : a ≠ 0 := by rw [ha0]; decide
  have hlt : a < 0 := by rw [ha0]; decide
  simp only [runStub, generateStubCode, branchTestInt32, isInt32Tagged_boxInt32,
    unboxInt32_boxInt32, ma_b, toInt32_ofInt32 ha, toInt32_ofInt32 hb, toInt32_Imm32_zero,
    hd, as_mullw, subf, tagValue, hsub, boxValue_ofInt32]
  by_cases h : undef (ofInt32 a) (ofInt32 b) % 4294967296 = 0
  · rw [if_pos h]
    simp [hk.mpr h, hne, hlt, Outcome.result]
  · rw [if_neg h]
    simp [mt hk.mp h, hne, Outcome.result]

/-- C10: evaluation of the Mod stub on the `divwo` overflow inputs, which
should bail.  `Mod(5, 0)` returns the boxed integer 5 whatever the undefined
quotient is, and `Mod(INT_MIN, -1)` bails only when the undefined quotient
word is zero. -/
theorem mod_overflow_inputs_return (undef : Nat → Nat → Nat) (allowDouble_ : Bool)
    (s : Regs) :
    (runStub undef JSOp.JSOP_MOD allowDouble_ s (boxInt32 5) (boxInt32 0)).bailed = false ∧
    (runStub undef JSOp.JSOP_MOD allowDouble_ s (boxInt32 5) (boxInt32 0)).result
      = some (boxInt32 5) ∧
    ((runStub undef JSOp.JSOP_MOD allowDouble_ s (boxInt32 INT32_MIN) (boxInt32 (-1))).bailed
        = true
      ↔ undef (ofInt32 INT32_MIN) (ofInt32 (-1)) % 4294967296 = 0) := by
  have h := mod_by_zero_result undef allowDouble_ s 5 0 (by decide) rfl
  rw [if_neg (by decide)] at h
  refine ⟨not_bailed_of_result_some h, h, ?_⟩
  rw [bailed_iff_result_none,
    mod_INT32_MIN_neg_one_result undef allowDouble_ s INT32_MIN (-1) rfl rfl]
  by_cases h0 : undef (ofInt32 INT32_MIN) (ofInt32 (-1)) % 4294967296 = 0
  · simp [h0]
  · simp [h0]

/-! ## Mod: when it returns and what it returns -/

theorem tmod_sign (a b : Int) :
    (0 ≤ a → 0 ≤ a.tmod b) ∧ (a ≤ 0 → a.tmod b ≤ 0) := by
  refine ⟨Int.tmod_nonneg b, ?_⟩
  intro h
  rcases a with m | m <;> rcases b with n | n
  · have hm : m = 0 := by
      simp only [Int.ofNat_eq_coe] at h
      omega
    subst hm
    simp [Int.tmod]
  · have hm : m = 0 := by
      simp only [Int.ofNat_eq_coe] at h
      omega
    subst hm
    simp [Int.tmod]
  · simp only [Int.tmod, Int.ofNat_eq_coe]
    omega
  · simp only [Int.tmod, Int.ofNat_eq_coe]
    omega

theorem tmod_isInt32 (a : Int) {b : Int} (hb : isInt32 b) (hb0 : b ≠ 0) :
    isInt32 (a.tmod b) := by
  have h := natAbs_tmod_lt a b hb0
  unfold isInt32 INT32_MIN INT32_MAX at *
  omega

theorem tdiv_mul_eq_zero_iff (a : Int) {b : Int} (hb0 : b ≠ 0) :
    a.tdiv b * b = 0 ↔ a.tdiv b = 0 := by
  constructor
  · intro h
    rcases Int.mul_eq_zero.mp h with h1 | h1
    · exact h1
    · exact absurd h1 hb0
  · intro h
    rw [h, Int.zero_mul]

theorem tdiv_eq_zero_iff_natAbs_lt (a : Int) {b : Int} (hb0 : b ≠ 0) :
    a.tdiv b = 0 ↔ a.natAbs < b.natAbs := by
  have h : (a.tdiv b).natAbs = a.natAbs / b.natAbs := Int.natAbs_tdiv a b
  have hpos : 0 < b.natAbs := Int.natAbs_pos.mpr hb0
  rw [← Int.natAbs_eq_zero, h, Nat.div_eq_zero_iff hpos]

theorem boxInt32_injective {a b : Int} (ha : isInt32 a) (hb : isInt32 b)
    (h : boxInt32 a = boxInt32 b) : a = b := by
  have h1 := congrArg (fun v => toInt32 (unboxInt32 v)) h
  simpa [toInt32_unbox_box ha, toInt32_unbox_box hb] using h1

/-- C11, as stated, fails: `Mod(0, -5)` meets every condition (non-zero
divisor, not the overflow pair, not a zero remainder with a negative dividend)
and the stub bails on the negative-zero pre-check shared with Div; `Mod(-1, 2)`
meets them too and bails on the zero test of `quotient * b`. -/
theorem mod_spurious_bail_counterexample :
    (isInt32 0 ∧ isInt32 (-5) ∧ (-5 : Int) ≠ 0 ∧ ¬ ((0 : Int) = INT32_MIN ∧ (-5 : Int) = -1) ∧
      ¬ ((0 : Int).tmod (-5) = 0 ∧ (0 : Int) < 0) ∧
      (runStub undefZero JSOp.JSOP_MOD false zeroRegs (boxInt32 0) (boxInt32 (-5))).bailed
        = true) ∧
    (isInt32 (-1) ∧ isInt32 2 ∧ (2 : Int) ≠ 0 ∧ ¬ ((-1 : Int) = INT32_MIN ∧ (2 : Int) = -1) ∧
      ¬ ((-1 : Int).tmod 2 = 0 ∧ (-1 : Int) < 0) ∧
      (runStub undefZero JSOp.JSOP_MOD false zeroRegs (boxInt32 (-1)) (boxInt32 2)).bailed
        = true) := by
  decide

/-- C11, amended: for 32-bit signed `a`, `b` with `b ≠ 0`, `(a, b)` not the
overflow pair, not (zero remainder and `a < 0`), and moreover not (`a = 0` and
`b < 0`) and not (`a < 0` and a zero truncating quotient), the Mod stub returns
a result instead of bailing. -/
theorem mod_returns_amended (undef : Nat → Nat → Nat) (allowDouble_ : Bool) (s : Regs)
    (a b : Int) (ha : isInt32 a) (hb : isInt32 b) (hb0 : b ≠ 0)
    (hov : ¬ (a = INT32_MIN ∧ b = -1)) (_hnz : ¬ (a.tmod b = 0 ∧ a < 0))
    (hpre : ¬ (a = 0 ∧ b < 0)) (hq : ¬ (a < 0 ∧ a.tdiv b = 0)) :
    (runStub undef JSOp.JSOP_MOD allowDouble_ s (boxInt32 a) (boxInt32 b)).bailed = false ∧
    ∃ v, (runStub undef JSOp.JSOP_MOD allowDouble_ s (boxInt32 a) (boxInt32 b)).result
      = some v := by
  have h := mod_result undef allowDouble_ s ha hb hb0 hov
  have hc : ¬ ((a = 0 ∧ b < 0) ∨ (a.tdiv b * b = 0 ∧ a < 0)) := by
    rintro (h1 | ⟨h1, h2⟩)
    · exact hpre h1
    · exact hq ⟨h2, (tdiv_mul_eq_zero_iff a hb0).mp h1⟩
  rw [if_neg hc] at h
  exact ⟨not_bailed_of_result_some h, _, h⟩

/-- Witness for the amended C11: `Mod(-5, 2)` returns. -/
theorem mod_returns_amended_witness :
    (isInt32 (-5) ∧ isInt32 2 ∧ (2 : Int) ≠ 0 ∧ ¬ ((-5 : Int) = INT32_MIN ∧ (2 : Int) = -1) ∧
      ¬ ((-5 : Int).tmod 2 = 0 ∧ (-5 : Int) < 0) ∧ ¬ ((-5 : Int) = 0 ∧ (2 : Int) < 0) ∧
      ¬ ((-5 : Int) < 0 ∧ (-5 : Int).tdiv 2 = 0)) ∧
    ((runStub undefZero JSOp.JSOP_MOD false zeroRegs (boxInt32 (-5)) (boxInt32 2)).bailed
        = false ∧
      ∃ v, (runStub undefZero JSOp.JSOP_MOD false zeroRegs (boxInt32 (-5)) (boxInt32 2)).result
        = some v) :=
  ⟨by decide,
   mod_returns_amended undefZero false zeroRegs (-5) 2 (by decide) (by decide) (by decide)
     (by decide) (by decide) (by decide) (by decide)⟩

/-- The integer returned by the Mod stub: for 32-bit signed `a`, `b` with
`b ≠ 0` and `(a, b)` not the overflow pair, a returned value `v` is
integer-tagged and boxes `a - b * trunc(a / b)`, a 32-bit integer that is
never of the opposite sign to the dividend.  (Whether that is the value of
`a % b` is settled by `mod_agrees_with_general_iff`.) -/
theorem mod_returned_value_is_remainder (undef : Nat → Nat → Nat) (allowDouble_ : Bool)
    (s : Regs) (a b : Int) (ha : isInt32 a) (hb : isInt32 b) (hb0 : b ≠ 0)
    (hov : ¬ (a = INT32_MIN ∧ b = -1)) (v : Nat)
    (hret : (runStub undef JSOp.JSOP_MOD allowDouble_ s (boxInt32 a) (boxInt32 b)).result
      = some v) :
    v = boxInt32 (a - b * a.tdiv b) ∧ isInt32Tagged v = true ∧
    toInt32 (unboxInt32 v) = a - b * a.tdiv b ∧
    isInt32 (a - b * a.tdiv b) ∧
    (0 ≤ a → 0 ≤ a - b * a.tdiv b) ∧ (a ≤ 0 → a - b * a.tdiv b ≤ 0) := by
  have h := mod_result undef allowDouble_ s ha hb hb0 hov
  rw [hret] at h
  have hr : a - b * a.tdiv b = a.tmod b := (Int.tmod_def a b).symm
  rw [hr]
  have hri := tmod_isInt32 a hb hb0
  by_cases hc : (a = 0 ∧ b < 0) ∨ (a.tdiv b * b = 0 ∧ a < 0)
  · rw [if_pos hc] at h
    exact absurd h (by simp)
  · rw [if_neg hc] at h
    have hv : v = boxInt32 (a.tmod b) := Option.some.inj h
    subst hv
    exact ⟨rfl, isInt32Tagged_boxInt32 _, toInt32_unbox_box hri, hri,
      (tmod_sign a b).1, (tmod_sign a b).2⟩

/-- An instance of `mod_returned_value_is_remainder`: `Mod(-5, 2)` returns the
boxed integer -1. -/
theorem mod_returned_value_is_remainder_witness :
    (isInt32 (-5) ∧ isInt32 2 ∧ (2 : Int) ≠ 0 ∧ ¬ ((-5 : Int) = INT32_MIN ∧ (2 : Int) = -1) ∧
      (runStub undefZero JSOp.JSOP_MOD false zeroRegs (boxInt32 (-5)) (boxInt32 2)).result
        = some (boxInt32 (-1))) ∧
    (boxInt32 (-1) = boxInt32 (-5 - 2 * (-5 : Int).tdiv 2) ∧
      isInt32Tagged (boxInt32 (-1)) = true ∧
      toInt32 (unboxInt32 (boxInt32 (-1))) = -5 - 2 * (-5 : Int).tdiv 2 ∧
      isInt32 (-5 - 2 * (-5 : Int).tdiv 2) ∧
      ((0 : Int) ≤ -5 → 0 ≤ -5 - 2 * (-5 : Int).tdiv 2) ∧
      ((-5 : Int) ≤ 0 → -5 - 2 * (-5 : Int).tdiv 2 ≤ 0)) :=
  ⟨by decide,
   mod_returned_value_is_remainder undefZero false zeroRegs (-5) 2 (by decide) (by decide)
     (by decide) (by decide) (boxInt32 (-1)) (by decide)⟩

theorem isInt32Tagged_negativeZero : isInt32Tagged negativeZero = false := by decide

/-- The Mod stub against the general evaluator: for 32-bit signed `a`, `b` with
`b ≠ 0` and `(a, b)` not the overflow pair, a returned value is the value of
`a % b` exactly when the result is not negative zero. -/
theorem mod_agrees_with_general_iff (undef : Nat → Nat → Nat) (allowDouble_ : Bool)
    (s : Regs) (a b : Int) (ha : isInt32 a) (hb : isInt32 b) (hb0 : b ≠ 0)
    (hov : ¬ (a = INT32_MIN ∧ b = -1)) (v : Nat)
    (hret : (runStub undef JSOp.JSOP_MOD allowDouble_ s (boxInt32 a) (boxInt32 b)).result
      = some v) :
    v = generalMod a b ↔ ¬ (a.tmod b = 0 ∧ a < 0) := by
  have h := mod_returned_value_is_remainder undef allowDouble_ s a b ha hb hb0 hov v hret
  have hr : a - b * a.tdiv b = a.tmod b := (Int.tmod_def a b).symm
  have hv : v = boxInt32 (a.tmod b) := by rw [← hr]; exact h.1
  unfold generalMod
  by_cases hc : a.tmod b = 0 ∧ a < 0
  · rw [if_pos hc]
    constructor
    · intro hz
      have ht := h.2.1
      rw [hz, isInt32Tagged_negativeZero] at ht
      exact absurd ht (by decide)
    · intro hn
      exact absurd hc hn
  · rw [if_neg hc]
    exact ⟨fun _ => hc, fun _ => hv⟩

/-- C12: evaluation of the Mod stub at `(-4, 2)`.  A returned value should be
the value the general evaluator gives for `a % b`, with the sign of the
dividend; here `b ≠ 0` and the pair is not the overflow pair, the value of
`-4 % 2` is negative zero (a double), and the stub returns the integer-tagged
`+0` instead. -/
theorem mod_returns_plus_zero_for_negative_zero (undef : Nat → Nat → Nat)
    (allowDouble_ : Bool) (s : Regs) :
    (isInt32 (-4) ∧ isInt32 2 ∧ (2 : Int) ≠ 0 ∧ ¬ ((-4 : Int) = INT32_MIN ∧ (2 : Int) = -1)) ∧
    (runStub undef JSOp.JSOP_MOD allowDouble_ s (boxInt32 (-4)) (boxInt32 2)).result
      = some (boxInt32 0) ∧
    (-4 : Int) - 2 * (-4 : Int).tdiv 2 = 0 ∧
    generalMod (-4) 2 = negativeZero ∧
    isDoubleTagged (generalMod (-4) 2) = true ∧
    isInt32Tagged (generalMod (-4) 2) = false ∧
    (runStub undef JSOp.JSOP_MOD allowDouble_ s (boxInt32 (-4)) (boxInt32 2)).result
      ≠ some (generalMod (-4) 2) := by
  have h := mod_result undef allowDouble_ s (show isInt32 (-4) by decide)
    (show isInt32 2 by decide) (show (2 : Int) ≠ 0 by decide) (by decide)
  rw [if_neg (by decide)] at h
  have h0 : boxInt32 ((-4 : Int).tmod 2) = boxInt32 0 := by decide
  rw [h0] at h
  refine ⟨by decide, h, by decide, by decide, by decide, by decide, ?_⟩
  rw [h]
  decide

/-- C13, as stated, fails: `Mod(7, 3)` does not bail, the remainder is 1, and
the stub returns the boxed integer 1, not the boxed `1 - 3`. -/
theorem mod_result_not_r_minus_b_counterexample :
    isInt32 7 ∧ isInt32 3 ∧
    (runStub undefZero JSOp.JSOP_MOD false zeroRegs (boxInt32 7) (boxInt32 3)).bailed = false ∧
    (runStub undefZero JSOp.JSOP_MOD false zeroRegs (boxInt32 7) (boxInt32 3)).result
      = some (boxInt32 1) ∧
    (7 : Int).tmod 3 = 1 ∧
    (runStub undefZero JSOp.JSOP_MOD false zeroRegs (boxInt32 7) (boxInt32 3)).result
      ≠ some (boxInt32 ((7 : Int).tmod 3 - 3)) := by
  decide

/-- C13, amended: for 32-bit signed `a`, `b` with `b ≠ 0` and `(a, b)` not the
overflow pair, on which the Mod stub does not bail, the returned integer is
`a - q * b` with `q` the truncating quotient, which is the remainder `r`
itself and never `r - b`. -/
theorem mod_returns_r_amended (undef : Nat → Nat → Nat) (allowDouble_ : Bool) (s : Regs)
    (a b : Int) (ha : isInt32 a) (hb : isInt32 b) (hb0 : b ≠ 0)
    (hov : ¬ (a = INT32_MIN ∧ b = -1))
    (hret : (runStub undef JSOp.JSOP_MOD allowDouble_ s (boxInt32 a) (boxInt32 b)).bailed
      = false) :
    (runStub undef JSOp.JSOP_MOD allowDouble_ s (boxInt32 a) (boxInt32 b)).result
      = some (boxInt32 (a.tmod b)) ∧
    a.tmod b = a - a.tdiv b * b ∧
    (runStub undef JSOp.JSOP_MOD allowDouble_ s (boxInt32 a) (boxInt32 b)).result
      ≠ some (boxInt32 (a.tmod b - b)) := by
  have h := mod_result undef allowDouble_ s ha hb hb0 hov
  have hr : a.tmod b = a - a.tdiv b * b := by
    have := Int.tdiv_add_tmod' a b
    omega
  by_cases hc : (a = 0 ∧ b < 0) ∨ (a.tdiv b * b = 0 ∧ a < 0)
  · rw [if_pos hc] at h
    have hb2 := (bailed_iff_result_none _).mpr h
    rw [hret] at hb2
    exact absurd hb2 (by decide)
  · rw [if_neg hc] at h
    refine ⟨h, hr, ?_⟩
    rw [h]
    intro hcontra
    have h1 := congrArg (fun v => toInt32 (unboxInt32 v)) (Option.some.inj hcontra)
    have hri := tmod_isInt32 a hb hb0
    simp only [unboxInt32_boxInt32, toInt32_ofInt32 hri] at h1
    have h2 := toInt32_ofInt32_emod (a.tmod b - b)
    have h3 : a.tmod b % 4294967296 = (a.tmod b - b) % 4294967296 :=
      (congrArg (fun x => x % 4294967296) h1).trans h2
    unfold isInt32 INT32_MIN INT32_MAX at *
    omega

/-- Witness for the amended C13: `Mod(7, 3)` returns the boxed remainder 1. -/
theorem mod_returns_r_amended_witness :
    (isInt32 7 ∧ isInt32 3 ∧ (3 : Int) ≠ 0 ∧ ¬ ((7 : Int) = INT32_MIN ∧ (3 : Int) = -1) ∧
      (runStub undefZero JSOp.JSOP_MOD false zeroRegs (boxInt32 7) (boxInt32 3)).bailed
        = false) ∧
    ((runStub undefZero JSOp.JSOP_MOD false zeroRegs (boxInt32 7) (boxInt32 3)).result
        = some (boxInt32 ((7 : Int).tmod 3)) ∧
      (7 : Int).tmod 3 = 7 - (7 : Int).tdiv 3 * 3 ∧
      (runStub undefZero JSOp.JSOP_MOD false zeroRegs (boxInt32 7) (boxInt32 3)).result
        ≠ some (boxInt32 ((7 : Int).tmod 3 - 3))) :=
  ⟨by decide,
   mod_returns_r_amended undefZero false zeroRegs 7 3 (by decide) (by decide) (by decide)
     (by decide) (by decide)⟩

/-- C20: for 32-bit signed `a`, `b` with `b ≠ 0` and `(a, b)` not the overflow
pair, the Mod stub as coded bails if and only if (`a = 0` and `b < 0`) or
(`a < 0` and the truncating quotient is 0, that is `|a| < |b|`); on every
other such input it returns the boxed `a - b * trunc(a / b)`. -/
theorem mod_as_coded (undef : Nat → Nat → Nat) (allowDouble_ : Bool) (s : Regs)
    (a b : Int) (ha : isInt32 a) (hb : isInt32 b) (hb0 : b ≠ 0)
    (hov : ¬ (a = INT32_MIN ∧ b = -1)) :
    ((runStub undef JSOp.JSOP_MOD allowDouble_ s (boxInt32 a) (boxInt32 b)).bailed = true
      ↔ ((a = 0 ∧ b < 0) ∨ (a < 0 ∧ a.tdiv b = 0))) ∧
    (a.tdiv b = 0 ↔ a.natAbs < b.natAbs) ∧
    (¬ ((a = 0 ∧ b < 0) ∨ (a < 0 ∧ a.tdiv b = 0)) →
      (runStub undef JSOp.JSOP_MOD allowDouble_ s (boxInt32 a) (boxInt32 b)).result
        = some (boxInt32 (a - b * a.tdiv b))) := by
  have h := mod_result undef allowDouble_ s ha hb hb0 hov
  have hz := tdiv_mul_eq_zero_iff a hb0
  have hr : a - b * a.tdiv b = a.tmod b := (Int.tmod_def a b).symm
  have hiff : ((a = 0 ∧ b < 0) ∨ (a.tdiv b * b = 0 ∧ a < 0))
      ↔ ((a = 0 ∧ b < 0) ∨ (a < 0 ∧ a.tdiv b = 0)) := by
    rw [hz]
    constructor
    · rintro (h1 | ⟨h1, h2⟩)
      · exact Or.inl h1
      · exact Or.inr ⟨h2, h1⟩
    · rintro (h1 | ⟨h1, h2⟩)
      · exact Or.inl h1
      · exact Or.inr ⟨h2, h1⟩
  refine ⟨?_, tdiv_eq_zero_iff_natAbs_lt a hb0, ?_⟩
  · rw [bailed_iff_result_none, h]
    constructor
    · intro hx
      by_cases hc : (a = 0 ∧ b < 0) ∨ (a.tdiv b * b = 0 ∧ a < 0)
      · exact hiff.mp hc
      · rw [if_neg hc] at hx
        exact absurd hx (by simp)
    · intro hx
      rw [if_pos (hiff.mpr hx)]
  · intro hc
    rw [h, if_neg (fun x => hc (hiff.mp x)), hr]

/-- Witness for C20: `Mod(-1, 2)` has a zero quotient and a negative dividend,
so the stub bails. -/
theorem mod_as_coded_witness :
    (isInt32 (-1) ∧ isInt32 2 ∧ (2 : Int) ≠ 0 ∧ ¬ ((-1 : Int) = INT32_MIN ∧ (2 : Int) = -1)) ∧
    (((runStub undefZero JSOp.JSOP_MOD false zeroRegs (boxInt32 (-1)) (boxInt32 2)).bailed
        = true
      ↔ (((-1 : Int) = 0 ∧ (2 : Int) < 0) ∨ ((-1 : Int) < 0 ∧ (-1 : Int).tdiv 2 = 0))) ∧
    ((-1 : Int).tdiv 2 = 0 ↔ (-1 : Int).natAbs < (2 : Int).natAbs) ∧
    (¬ (((-1 : Int) = 0 ∧ (2 : Int) < 0) ∨ ((-1 : Int) < 0 ∧ (-1 : Int).tdiv 2 = 0)) →
      (runStub undefZero JSOp.JSOP_MOD false zeroRegs (boxInt32 (-1)) (boxInt32 2)).result
        = some (boxInt32 (-1 - 2 * (-1 : Int).tdiv 2)))) ∧
    (runStub undefZero JSOp.JSOP_MOD false zeroRegs (boxInt32 (-1)) (boxInt32 2)).bailed
      = true :=
  ⟨by decide,
   mod_as_coded undefZero false zeroRegs (-1) 2 (by decide) (by decide) (by decide)
     (by decide),
   by decide⟩


/-! ## Bitwise operators: words against two's-complement integers -/

theorem testBit_false_of_lt_two_pow {x n i : Nat} (h : x < 2 ^ n) (hi : n ≤ i) :
    x.testBit i = false :=
  Nat.testBit_lt_two_pow (Nat.lt_of_lt_of_le h (Nat.pow_le_pow_right (by omega) hi))

theorem ldiff_lt_two_pow {x n : Nat} (y : Nat) (h : x < 2 ^ n) : Nat.ldiff x y < 2 ^ n := by
  apply Nat.lt_pow_two_of_testBit
  intro i hi
  rw [Nat.testBit_ldiff, testBit_false_of_lt_two_pow h hi, Bool.false_and]

theorem isInt32_ofNat_iff (m : Nat) : isInt32 (Int.ofNat m) ↔ m < 2 ^ 31 := by
  unfold isInt32 INT32_MIN INT32_MAX
  simp only [Int.ofNat_eq_coe]
  omega

theorem isInt32_negSucc_iff (m : Nat) : isInt32 (Int.negSucc m) ↔ m < 2 ^ 31 := by
  unfold isInt32 INT32_MIN INT32_MAX
  rw [Int.negSucc_eq]
  omega

theorem isInt32_lor {a b : Int} (ha : isInt32 a) (hb : isInt32 b) : isInt32 (Int.lor a b) := by
  rcases a with m | m <;> rcases b with n | n <;>
    simp only [isInt32_ofNat_iff, isInt32_negSucc_iff] at ha hb
  · exact (isInt32_ofNat_iff _).mpr (Nat.or_lt_two_pow ha hb)
  · exact (isInt32_negSucc_iff _).mpr (ldiff_lt_two_pow _ hb)
  · exact (isInt32_negSucc_iff _).mpr (ldiff_lt_two_pow _ ha)
  · exact (isInt32_negSucc_iff _).mpr (Nat.and_lt_two_pow _ hb)

theorem isInt32_land {a b : Int} (ha : isInt32 a) (hb : isInt32 b) :
    isInt32 (Int.land a b) := by
  rcases a with m | m <;> rcases b with n | n <;>
    simp only [isInt32_ofNat_iff, isInt32_negSucc_iff] at ha hb
  · exact (isInt32_ofNat_iff _).mpr (Nat.and_lt_two_pow _ hb)
  · exact (isInt32_ofNat_iff _).mpr (ldiff_lt_two_pow _ ha)
  · exact (isInt32_ofNat_iff _).mpr (ldiff_lt_two_pow _ hb)
  · exact (isInt32_negSucc_iff _).mpr (Nat.or_lt_two_pow ha hb)

theorem isInt32_xor {a b : Int} (ha : isInt32 a) (hb : isInt32 b) :
    isInt32 (Int.xor a b) := by
  rcases a with m | m <;> rcases b with n | n <;>
    simp only [isInt32_ofNat_iff, isInt32_negSucc_iff] at ha hb
  · exact (isInt32_ofNat_iff _).mpr (Nat.xor_lt_two_pow ha hb)
  · exact (isInt32_negSucc_iff _).mpr (Nat.xor_lt_two_pow ha hb)
  · exact (isInt32_negSucc_iff _).mpr (Nat.xor_lt_two_pow ha hb)
  · exact (isInt32_ofNat_iff _).mpr (Nat.xor_lt_two_pow ha hb)

theorem two_pow_32 : (4294967296 : Nat) = 2 ^ 32 := by norm_num

theorem testBit_ofInt32 (a : Int) (i : Nat) :
    (ofInt32 a).testBit i = (decide (i < 32) && a.testBit i) := by
  rcases a with m | m
  · have h : ofInt32 (Int.ofNat m) = m % 2 ^ 32 := by
      unfold ofInt32
      simp only [Int.ofNat_eq_coe]
      omega
    rw [h, Nat.testBit_mod_two_pow]
    rfl
  · have h : ofInt32 (Int.negSucc m) = 2 ^ 32 - (m % 2 ^ 32 + 1) := by
      unfold ofInt32
      rw [Int.negSucc_eq]
      omega
    have hlt : m % 2 ^ 32 < 2 ^ 32 := Nat.mod_lt _ (by norm_num)
    rw [h, Nat.testBit_two_pow_sub_succ hlt, Nat.testBit_mod_two_pow]
    show _ = (decide (i < 32) && !m.testBit i)
    cases decide (i < 32) <;> simp

theorem ofInt32_lor (a b : Int) : ofInt32 (Int.lor a b) = ofInt32 a ||| ofInt32 b := by
  apply Nat.eq_of_testBit_eq
  intro i
  rw [testBit_ofInt32, Int.testBit_lor, Nat.testBit_or, testBit_ofInt32, testBit_ofInt32]
  cases decide (i < 32) <;> simp

theorem ofInt32_land (a b : Int) : ofInt32 (Int.land a b) = ofInt32 a &&& ofInt32 b := by
  apply Nat.eq_of_testBit_eq
  intro i
  rw [testBit_ofInt32, Int.testBit_land, Nat.testBit_and, testBit_ofInt32, testBit_ofInt32]
  cases decide (i < 32) <;> cases a.testBit i <;> cases b.testBit i <;> rfl

theorem ofInt32_xor (a b : Int) : ofInt32 (Int.xor a b) = ofInt32 a ^^^ ofInt32 b := by
  apply Nat.eq_of_testBit_eq
  intro i
  rw [testBit_ofInt32, Int.testBit_lxor, Nat.testBit_xor, testBit_ofInt32, testBit_ofInt32]
  cases decide (i < 32) <;> cases a.testBit i <;> cases b.testBit i <;> rfl

theorem boxValue_lor (type p q : Nat) :
    boxValue type p ||| boxValue type q
      = boxValue type (p % 4294967296 ||| q % 4294967296) := by
  have hp : p % 4294967296 < 2 ^ 32 := by omega
  have hq : q % 4294967296 < 2 ^ 32 := by omega
  have hlt : (p % 4294967296 ||| q % 4294967296) < 4294967296 := by
    rw [two_pow_32]; exact Nat.or_lt_two_pow hp hq
  unfold boxValue
  rw [Nat.mod_eq_of_lt hlt]
  apply Nat.eq_of_testBit_eq
  intro i
  simp only [Nat.testBit_or]
  cases (JSVAL_TYPE_TO_TAG type <<< JSVAL_TAG_SHIFT).testBit i <;>
    cases (p % 4294967296).testBit i <;> cases (q % 4294967296).testBit i <;> rfl

theorem boxValue_land (type p q : Nat) :
    boxValue type p &&& boxValue type q
      = boxValue type (p % 4294967296 &&& q % 4294967296) := by
  have hq : q % 4294967296 < 2 ^ 32 := by omega
  have hlt : (p % 4294967296 &&& q % 4294967296) < 4294967296 := by
    rw [two_pow_32]; exact Nat.and_lt_two_pow _ hq
  unfold boxValue
  rw [Nat.mod_eq_of_lt hlt]
  apply Nat.eq_of_testBit_eq
  intro i
  simp only [Nat.testBit_or, Nat.testBit_and]
  cases (JSVAL_TYPE_TO_TAG type <<< JSVAL_TAG_SHIFT).testBit i <;>
    cases (p % 4294967296).testBit i <;> cases (q % 4294967296).testBit i <;> rfl

theorem boxValue_xor_mod (type p q : Nat) :
    (boxValue type p ^^^ boxValue type q) % 4294967296
      = p % 4294967296 ^^^ q % 4294967296 := by
  unfold boxValue JSVAL_TAG_SHIFT
  rw [two_pow_32]
  apply Nat.eq_of_testBit_eq
  intro i
  simp only [Nat.testBit_mod_two_pow, Nat.testBit_xor, Nat.testBit_or,
    Nat.testBit_shiftLeft]
  by_cases h1 : i < 32
  · have h2 : ¬ (i ≥ 47) := by omega
    simp [h1, h2]
  · simp [h1]

theorem boxInt32_unbox {v : Nat} (h : isBoxedInt32 v) : boxInt32 (unbox v) = v := by
  unfold boxInt32 unbox
  rw [ofInt32_toInt32, boxValue_mod]
  exact h.symm

theorem isInt32Tagged_of_isBoxedInt32 {v : Nat} (h : isBoxedInt32 v) :
    isInt32Tagged v = true := by
  rw [h]; exact isInt32Tagged_boxValue _

/-! ## BitOr, BitAnd, BitXor -/

/-- C14: for integer-tagged boxed operands `x`, `y` the BitOr stub, which ORs
the two boxed words, never bails and returns exactly the rebox of
`unbox x | unbox y`; the BitAnd stub, which ANDs the two boxed words, never
bails and returns exactly the rebox of `unbox x & unbox y`. -/
theorem bitor_bitand_shortcut (undef : Nat → Nat → Nat) (allowDouble_ : Bool) (s : Regs)
    (x y : Nat) (hx : isBoxedInt32 x) (hy : isBoxedInt32 y) :
    (runStub undef JSOp.JSOP_BITOR allowDouble_ s x y).bailed = false ∧
    (runStub undef JSOp.JSOP_BITOR allowDouble_ s x y).result = some (unboxOrRebox x y) ∧
    (runStub undef JSOp.JSOP_BITAND allowDouble_ s x y).bailed = false ∧
    (runStub undef JSOp.JSOP_BITAND allowDouble_ s x y).result = some (unboxAndRebox x y) := by
  have tx := isInt32Tagged_of_isBoxedInt32 hx
  have ty := isInt32Tagged_of_isBoxedInt32 hy
  have hor : x ||| y = unboxOrRebox x y := by
    unfold unboxOrRebox unbox boxInt32
    rw [ofInt32_lor, ofInt32_toInt32, ofInt32_toInt32, ← boxValue_lor, ← hx, ← hy]
  have hand : x &&& y = unboxAndRebox x y := by
    unfold unboxAndRebox unbox boxInt32
    rw [ofInt32_land, ofInt32_toInt32, ofInt32_toInt32, ← boxValue_land, ← hx, ← hy]
  have h1 : (runStub undef JSOp.JSOP_BITOR allowDouble_ s x y).result
      = some (unboxOrRebox x y) := by
    simp only [runStub, generateStubCode, branchTestInt32, tx, ty, as_or, hor]
    rfl
  have h2 : (runStub undef JSOp.JSOP_BITAND allowDouble_ s x y).result
      = some (unboxAndRebox x y) := by
    simp only [runStub, generateStubCode, branchTestInt32, tx, ty, as_and, hand]
    rfl
  exact ⟨not_bailed_of_result_some h1, h1, not_bailed_of_result_some h2, h2⟩

/-- Witness for C14: on the boxed integers -8 and 33 the BitOr stub returns the
boxed -7 and the BitAnd stub the boxed 32. -/
theorem bitor_bitand_shortcut_witness :
    (isBoxedInt32 (boxInt32 (-8)) ∧ isBoxedInt32 (boxInt32 33)) ∧
    ((runStub undefZero JSOp.JSOP_BITOR false zeroRegs (boxInt32 (-8)) (boxInt32 33)).bailed
        = false ∧
      (runStub undefZero JSOp.JSOP_BITOR false zeroRegs (boxInt32 (-8)) (boxInt32 33)).result
        = some (unboxOrRebox (boxInt32 (-8)) (boxInt32 33)) ∧
      (runStub undefZero JSOp.JSOP_BITAND false zeroRegs (boxInt32 (-8)) (boxInt32 33)).bailed
        = false ∧
      (runStub undefZero JSOp.JSOP_BITAND false zeroRegs (boxInt32 (-8)) (boxInt32 33)).result
        = some (unboxAndRebox (boxInt32 (-8)) (boxInt32 33))) ∧
    (runStub undefZero JSOp.JSOP_BITOR false zeroRegs (boxInt32 (-8)) (boxInt32 33)).result
      = some (boxInt32 (-7)) ∧
    (runStub undefZero JSOp.JSOP_BITAND false zeroRegs (boxInt32 (-8)) (boxInt32 33)).result
      = some (boxInt32 32) :=
  ⟨⟨by decide, by decide⟩,
   bitor_bitand_shortcut undefZero false zeroRegs (boxInt32 (-8)) (boxInt32 33)
     (by decide) (by decide),
   by decide, by decide⟩

/-- C15: for integer-tagged boxed operands with payloads `a`, `b` the BitXor
stub never bails and returns the integer-tagged `a XOR b`, a 32-bit integer,
the same value as unboxing both, XOR-ing and reboxing. -/
theorem bitxor_exact (undef : Nat → Nat → Nat) (allowDouble_ : Bool) (s : Regs)
    (a b : Int) (ha : isInt32 a) (hb : isInt32 b) :
    (runStub undef JSOp.JSOP_BITXOR allowDouble_ s (boxInt32 a) (boxInt32 b)).bailed = false ∧
    (runStub undef JSOp.JSOP_BITXOR allowDouble_ s (boxInt32 a) (boxInt32 b)).result
      = some (boxInt32 (Int.xor a b)) ∧
    isInt32 (Int.xor a b) ∧
    (runStub undef JSOp.JSOP_BITXOR allowDouble_ s (boxInt32 a) (boxInt32 b)).result
      = some (unboxXorRebox (boxInt32 a) (boxInt32 b)) := by
  have hm : ∀ c : Int, ofInt32 c % 4294967296 = ofInt32 c :=
    fun c => Nat.mod_eq_of_lt (ofInt32_lt c)
  have hx : boxValue JSVAL_TYPE_INT32 (boxInt32 a ^^^ boxInt32 b) = boxInt32 (Int.xor a b) := by
    rw [← boxValue_mod]
    unfold boxInt32
    rw [boxValue_xor_mod, hm, hm, ofInt32_xor]
  have hu : unboxXorRebox (boxInt32 a) (boxInt32 b) = boxInt32 (Int.xor a b) := by
    unfold unboxXorRebox unbox
    rw [toInt32_unbox_box ha, toInt32_unbox_box hb]
  have h1 : (runStub undef JSOp.JSOP_BITXOR allowDouble_ s (boxInt32 a) (boxInt32 b)).result
      = some (boxInt32 (Int.xor a b)) := by
    simp only [runStub, generateStubCode, branchTestInt32, isInt32Tagged_boxInt32, as_xor,
      tagValue, hx]
    rfl
  exact ⟨not_bailed_of_result_some h1, h1, isInt32_xor ha hb, by rw [hu]; exact h1⟩

/-- Witness for C15: `BitXor(-8, 33)` returns the boxed integer -39. -/
theorem bitxor_exact_witness :
    (isInt32 (-8) ∧ isInt32 33) ∧
    ((runStub undefZero JSOp.JSOP_BITXOR false zeroRegs (boxInt32 (-8)) (boxInt32 33)).bailed
        = false ∧
      (runStub undefZero JSOp.JSOP_BITXOR false zeroRegs (boxInt32 (-8)) (boxInt32 33)).result
        = some (boxInt32 (Int.xor (-8) 33)) ∧
      isInt32 (Int.xor (-8) 33) ∧
      (runStub undefZero JSOp.JSOP_BITXOR false zeroRegs (boxInt32 (-8)) (boxInt32 33)).result
        = some (unboxXorRebox (boxInt32 (-8)) (boxInt32 33))) ∧
    Int.xor (-8) 33 = -39 :=
  ⟨⟨by decide, by decide⟩,
   bitxor_exact undefZero false zeroRegs (-8) 33 (by decide) (by decide),
   by decide⟩

/-! ## Lsh and Rsh -/

theorem land_31_eq (b : Int) : Int.land b 31 = ((ofInt32 b % 32 : Nat) : Int) := by
  have h31 : (31 : Nat) = 2 ^ 5 - 1 := by norm_num
  have key : ∀ k : Nat, (∀ i, k.testBit i = (b.testBit i && (31 : Nat).testBit i)) →
      k = ofInt32 b % 32 := by
    intro k hk
    apply Nat.eq_of_testBit_eq
    intro i
    rw [hk, show (32 : Nat) = 2 ^ 5 by norm_num, Nat.testBit_mod_two_pow, testBit_ofInt32,
      h31, Nat.testBit_two_pow_sub_one]
    by_cases h5 : i < 5
    · have h32 : i < 32 := by omega
      simp [h5, h32]
    · simp [h5]
  have e1 : ∀ m n : Nat, Int.land (Int.ofNat m) (Int.ofNat n) = ((m &&& n : Nat) : Int) :=
    fun _ _ => rfl
  have e2 : ∀ m n : Nat, Int.land (Int.negSucc m) (Int.ofNat n)
      = ((Nat.ldiff n m : Nat) : Int) := fun _ _ => rfl
  rw [show (31 : Int) = Int.ofNat 31 from rfl]
  rcases b with m | m
  · rw [e1]
    refine congrArg Nat.cast (key _ ?_)
    intro i
    rw [Nat.testBit_and]
    rfl
  · rw [e2]
    refine congrArg Nat.cast (key _ ?_)
    intro i
    rw [Nat.testBit_ldiff, Bool.and_comm]
    rfl

theorem shiftCount_eq (b : Int) : shiftCount b = ofInt32 b % 32 := by
  unfold shiftCount
  rw [show ((0x1f : Int)) = 31 by norm_num, land_31_eq]
  rfl

theorem shiftCount_lt (b : Int) : shiftCount b < 32 := by
  rw [shiftCount_eq]; omega

theorem as_andi_rc_mask (b : Int) : as_andi_rc (ofInt32 b) 31 = shiftCount b := by
  unfold as_andi_rc
  rw [shiftCount_eq, show (31 : Nat) = 2 ^ 5 - 1 by norm_num, Nat.and_pow_two_sub_one_eq_mod]

theorem shiftCount_idem (b : Int) : shiftCount ((shiftCount b : Nat) : Int) = shiftCount b := by
  have h := shiftCount_lt b
  rw [shiftCount_eq ((shiftCount b : Nat) : Int)]
  unfold ofInt32
  omega

theorem isInt32_shiftCount (b : Int) : isInt32 ((shiftCount b : Nat) : Int) := by
  have h := shiftCount_lt b
  unfold isInt32 INT32_MIN INT32_MAX
  omega

theorem as_slw_ofInt32 (a : Int) {n : Nat} (hn : n < 32) :
    as_slw (ofInt32 a) n = ofInt32 (a * 2 ^ n) := by
  unfold as_slw
  rw [Nat.mod_eq_of_lt (ofInt32_lt a), Nat.mod_eq_of_lt (show n < 64 by omega),
    Nat.shiftLeft_eq]
  unfold ofInt32
  have h1 : ((a % 4294967296).toNat : Int) = a % 4294967296 :=
    Int.toNat_of_nonneg (Int.emod_nonneg _ (by norm_num))
  have h2 : (a % 4294967296 * 2 ^ n) % 4294967296 = (a * 2 ^ n) % 4294967296 :=
    (Int.mod_modEq a 4294967296).mul_right (2 ^ n)
  have h3 : ((((a % 4294967296).toNat * 2 ^ n) % 4294967296 : Nat) : Int)
      = (a * 2 ^ n) % 4294967296 := by
    push_cast
    rw [h1, h2]
  omega

theorem isInt32_shiftRight {a : Int} (ha : isInt32 a) (n : Nat) : isInt32 (a >>> n) := by
  rw [Int.shiftRight_eq_div_pow]
  have hd : (0 : Int) < ((2 ^ n : Nat) : Int) := by positivity
  have hd1 : (1 : Int) ≤ ((2 ^ n : Nat) : Int) := by omega
  unfold isInt32 INT32_MIN INT32_MAX at *
  by_cases h0 : 0 ≤ a
  · have h1 := Int.ediv_le_self ((2 ^ n : Nat) : Int) h0
    have h2 := Int.ediv_nonneg h0 (Int.le_of_lt hd)
    omega
  · have h1 : a / ((2 ^ n : Nat) : Int) < 0 := Int.ediv_neg' (by omega) hd
    have h2 : a ≤ a / ((2 ^ n : Nat) : Int) := by
      rw [Int.le_ediv_iff_mul_le hd]
      nlinarith
    omega

theorem boxInt32_wrapInt32 (i : Int) : boxInt32 (wrapInt32 i) = boxInt32 i := by
  unfold boxInt32 wrapInt32
  rw [ofInt32_toInt32, boxValue_mod]

theorem as_sraw_ofInt32 {a : Int} (ha : isInt32 a) {n : Nat} (hn : n < 32) :
    as_sraw (ofInt32 a) n = ofInt32 (a >>> n) := by
  unfold as_sraw
  rw [toInt32_ofInt32 ha, Nat.mod_eq_of_lt (show n < 64 by omega)]

/-- The Lsh stub: never bails, shifts by the masked amount. -/
theorem lsh_result (undef : Nat → Nat → Nat) (allowDouble_ : Bool) (s : Regs)
    (a b : Int) :
    (runStub undef JSOp.JSOP_LSH allowDouble_ s (boxInt32 a) (boxInt32 b)).result
      = some (boxInt32 (wrapInt32 (a * 2 ^ shiftCount b))) := by
  simp only [runStub, generateStubCode, branchTestInt32, isInt32Tagged_boxInt32,
    unboxInt32_boxInt32, as_andi_rc_mask, as_slw_ofInt32 a (shiftCount_lt b), tagValue,
    boxValue_ofInt32, boxInt32_wrapInt32]
  rfl

/-- The Rsh stub: never bails, shifts by the masked amount. -/
theorem rsh_result (undef : Nat → Nat → Nat) (allowDouble_ : Bool) (s : Regs)
    (a b : Int) (ha : isInt32 a) :
    (runStub undef JSOp.JSOP_RSH allowDouble_ s (boxInt32 a) (boxInt32 b)).result
      = some (boxInt32 (a >>> shiftCount b)) := by
  simp only [runStub, generateStubCode, branchTestInt32, isInt32Tagged_boxInt32,
    unboxInt32_boxInt32, as_andi_rc_mask, as_sraw_ofInt32 ha (shiftCount_lt b), tagValue,
    boxValue_ofInt32]
  rfl

/-- C16: for 32-bit signed `a`, `b` the Lsh and Rsh stubs never bail and use
only `b & 0x1f`: Lsh returns the integer-tagged low 32 bits of `a` shifted left
by that amount, read as signed, and Rsh the integer-tagged sign-extending
right shift of `a` by it; hence each gives on `(a, b)` what it gives on
`(a, b & 0x1f)`. -/
theorem lsh_rsh_masked (undef : Nat → Nat → Nat) (allowDouble_ : Bool) (s : Regs)
    (a b : Int) (ha : isInt32 a) (_hb : isInt32 b) :
    (runStub undef JSOp.JSOP_LSH allowDouble_ s (boxInt32 a) (boxInt32 b)).bailed = false ∧
    (runStub undef JSOp.JSOP_LSH allowDouble_ s (boxInt32 a) (boxInt32 b)).result
      = some (boxInt32 (wrapInt32 (a * 2 ^ shiftCount b))) ∧
    (runStub undef JSOp.JSOP_RSH allowDouble_ s (boxInt32 a) (boxInt32 b)).bailed = false ∧
    (runStub undef JSOp.JSOP_RSH allowDouble_ s (boxInt32 a) (boxInt32 b)).result
      = some (boxInt32 (a >>> shiftCount b)) ∧
    isInt32 (wrapInt32 (a * 2 ^ shiftCount b)) ∧ isInt32 (a >>> shiftCount b) ∧
    shiftCount b < 32 ∧
    (runStub undef JSOp.JSOP_LSH allowDouble_ s (boxInt32 a) (boxInt32 b)).result
      = (runStub undef JSOp.JSOP_LSH allowDouble_ s (boxInt32 a)
          (boxInt32 ((shiftCount b : Nat) : Int))).result ∧
    (runStub undef JSOp.JSOP_RSH allowDouble_ s (boxInt32 a) (boxInt32 b)).result
      = (runStub undef JSOp.JSOP_RSH allowDouble_ s (boxInt32 a)
          (boxInt32 ((shiftCount b : Nat) : Int))).result := by
  have hl := lsh_result undef allowDouble_ s a b
  have hr := rsh_result undef allowDouble_ s a b ha
  have hl2 := lsh_result undef allowDouble_ s a ((shiftCount b : Nat) : Int)
  have hr2 := rsh_result undef allowDouble_ s a ((shiftCount b : Nat) : Int) ha
  rw [shiftCount_idem] at hl2 hr2
  exact ⟨not_bailed_of_result_some hl, hl, not_bailed_of_result_some hr, hr,
    isInt32_toInt32 _, isInt32_shiftRight ha _, shiftCount_lt b,
    hl.trans hl2.symm, hr.trans hr2.symm⟩

/-- Witness for C16: `Lsh(1, 33)` is `Lsh(1, 1)` and returns the boxed integer
2; `Rsh(-8, 33)` returns the boxed integer -4. -/
theorem lsh_rsh_masked_witness :
    (isInt32 1 ∧ isInt32 33) ∧
    ((runStub undefZero JSOp.JSOP_LSH false zeroRegs (boxInt32 1) (boxInt32 33)).bailed = false ∧
    (runStub undefZero JSOp.JSOP_LSH false zeroRegs (boxInt32 1) (boxInt32 33)).result
      = some (boxInt32 (wrapInt32 (1 * 2 ^ shiftCount 33))) ∧
    (runStub undefZero JSOp.JSOP_RSH false zeroRegs (boxInt32 1) (boxInt32 33)).bailed = false ∧
    (runStub undefZero JSOp.JSOP_RSH false zeroRegs (boxInt32 1) (boxInt32 33)).result
      = some (boxInt32 (1 >>> shiftCount 33)) ∧
    isInt32 (wrapInt32 (1 * 2 ^ shiftCount 33)) ∧ isInt32 ((1 : Int) >>> shiftCount 33) ∧
    shiftCount 33 < 32 ∧
    (runStub undefZero JSOp.JSOP_LSH false zeroRegs (boxInt32 1) (boxInt32 33)).result
      = (runStub undefZero JSOp.JSOP_LSH false zeroRegs (boxInt32 1)
          (boxInt32 ((shiftCount 33 : Nat) : Int))).result ∧
    (runStub undefZero JSOp.JSOP_RSH false zeroRegs (boxInt32 1) (boxInt32 33)).result
      = (runStub undefZero JSOp.JSOP_RSH false zeroRegs (boxInt32 1)
          (boxInt32 ((shiftCount 33 : Nat) : Int))).result) ∧
    shiftCount 33 = 1 ∧
    (runStub undefZero JSOp.JSOP_LSH false zeroRegs (boxInt32 1) (boxInt32 33)).result
      = some (boxInt32 2) ∧
    (runStub undefZero JSOp.JSOP_LSH false zeroRegs (boxInt32 1) (boxInt32 1)).result
      = some (boxInt32 2) ∧
    (runStub undefZero JSOp.JSOP_RSH false zeroRegs (boxInt32 (-8)) (boxInt32 33)).result
      = some (boxInt32 (-4)) :=
  ⟨⟨by decide, by decide⟩,
   lsh_rsh_masked undefZero false zeroRegs 1 33 (by decide) (by decide),
   by decide, by decide, by decide, by decide⟩

/-! ## Ursh -/

theorem toInt32_neg_iff {u : Nat} (hu : u < 4294967296) :
    toInt32 u < 0 ↔ 2147483648 ≤ u := by
  unfold toInt32
  split <;> omega

theorem as_srw_lt (rs rb : Nat) : as_srw rs rb < 4294967296 := by
  unfold as_srw
  rw [Nat.shiftRight_eq_div_pow]
  have h : rs % 4294967296 / 2 ^ (rb % 64) ≤ rs % 4294967296 := Nat.div_le_self _ _
  omega

/-- The Ursh stub: the shift is `srw` by the unmasked right operand word (its
low six bits); a result below `2^31` is tagged as an integer, a larger one is
converted to a double when doubles are allowed and bails otherwise. -/
theorem ursh_result (undef : Nat → Nat → Nat) (allowDouble_ : Bool) (s : Regs)
    (a b : Int) :
    (runStub undef JSOp.JSOP_URSH allowDouble_ s (boxInt32 a) (boxInt32 b)).result
      = if as_srw (ofInt32 a) (ofInt32 b) < 2147483648
        then some (boxValue JSVAL_TYPE_INT32 (as_srw (ofInt32 a) (ofInt32 b)))
        else if allowDouble_ = true
          then some (convertUInt32ToDouble (as_srw (ofInt32 a) (ofInt32 b)))
          else none := by
  have hlt := as_srw_lt (ofInt32 a) (ofInt32 b)
  have hneg := toInt32_neg_iff hlt
  simp only [runStub, generateStubCode, branchTestInt32, isInt32Tagged_boxInt32,
    unboxInt32_boxInt32, ma_b, toInt32_Imm32_zero, tagValue, boxDouble]
  by_cases hu : as_srw (ofInt32 a) (ofInt32 b) < 2147483648
  · have hn : ¬ toInt32 (as_srw (ofInt32 a) (ofInt32 b)) < 0 := by
      rw [hneg]; omega
    cases allowDouble_ <;> simp [hu, hn, Outcome.result]
  · have hn : toInt32 (as_srw (ofInt32 a) (ofInt32 b)) < 0 := by
      rw [hneg]; omega
    cases allowDouble_ <;> simp [hu, hn, Outcome.result]

theorem wordLog2_of_ge {w : Nat} (h : 2147483648 ≤ w) : wordLog2 w = 31 := by
  unfold wordLog2
  have hall : ∀ k ∈ List.range 31, decide (2 ^ (k + 1) ≤ w) = true := by
    intro k hk
    have hk2 : k + 1 ≤ 31 := by
      have := List.mem_range.mp hk
      omega
    have hp : 2 ^ (k + 1) ≤ 2 ^ 31 := Nat.pow_le_pow_right (by omega) hk2
    have h31 : (2 : Nat) ^ 31 = 2147483648 := by norm_num
    exact decide_eq_true (by omega)
  rw [List.filter_eq_self.mpr hall, List.length_range]

theorem convertUInt32ToDouble_of_ge {u : Nat} (h1 : 2147483648 ≤ u) (h2 : u < 4294967296) :
    convertUInt32ToDouble u = 4746794007248502784 + (u - 2147483648) * 2097152 := by
  unfold convertUInt32ToDouble
  rw [Nat.mod_eq_of_lt h2, if_neg (by omega), wordLog2_of_ge h1]
  have hlt : (u - 2147483648) * 2097152 < 2 ^ 52 := by
    have : (2 : Nat) ^ 52 = 4503599627370496 := by norm_num
    omega
  have hor := Nat.mul_add_lt_is_or hlt 1054
  rw [Nat.shiftLeft_eq, Nat.shiftLeft_eq]
  have e1 : (1023 + 31) * 2 ^ 52 = 2 ^ 52 * 1054 := by norm_num
  have e2 : (u - 2 ^ 31) * 2 ^ (52 - 31) = (u - 2147483648) * 2097152 := by norm_num
  rw [e1, e2, ← hor]

theorem double_of_high_word {u : Nat} (h1 : 2147483648 ≤ u) (h2 : u < 4294967296) :
    isDoubleTagged (convertUInt32ToDouble u) = true ∧
    isInt32Tagged (convertUInt32ToDouble u) = false ∧
    doubleIsNat (convertUInt32ToDouble u) u := by
  rw [convertUInt32ToDouble_of_ge h1 h2]
  have hmax : JSVAL_SHIFTED_TAG_MAX_DOUBLE = 18444492278190833663 := by decide
  have htag : JSVAL_TYPE_TO_TAG JSVAL_TYPE_INT32 = 131057 := by decide
  refine ⟨?_, ?_, ?_⟩
  · unfold isDoubleTagged
    rw [hmax]
    exact decide_eq_true (by omega)
  · unfold isInt32Tagged JSVAL_TAG_SHIFT
    rw [htag, Nat.shiftRight_eq_div_pow]
    have : (2 : Nat) ^ 47 = 140737488355328 := by norm_num
    rw [this]
    simp only [beq_eq_false_iff_ne, ne_eq]
    omega
  · unfold doubleIsNat doubleSign doubleExponent doubleFraction
    rw [Nat.shiftRight_eq_div_pow, Nat.shiftRight_eq_div_pow]
    have p63 : (2 : Nat) ^ 63 = 9223372036854775808 := by norm_num
    have p52 : (2 : Nat) ^ 52 = 4503599627370496 := by norm_num
    rw [p63, p52]
    have hexp : (4746794007248502784 + (u - 2147483648) * 2097152) / 4503599627370496 % 2048
        = 1054 := by omega
    rw [hexp]
    have p21 : (2 : Nat) ^ (1075 - 1054) = 2097152 := by norm_num
    rw [p21]
    omega

/-- C17: evaluation of the Ursh stub at `(5, 32)`.  The shift should use
`32 & 0x1f = 0` and return 5; the stub masks into `r0` but shifts by the
unmasked `ExtractTemp1`, `srw` by 32 gives 0, and it returns the boxed integer
0, while on `(5, 0)` it returns the boxed integer 5. -/
theorem ursh_five_by_thirty_two (undef : Nat → Nat → Nat) (allowDouble_ : Bool)
    (s : Regs) :
    (runStub undef JSOp.JSOP_URSH allowDouble_ s (boxInt32 5) (boxInt32 32)).result
      = some (boxInt32 0) ∧
    shiftCount 32 = 0 ∧
    (runStub undef JSOp.JSOP_URSH allowDouble_ s (boxInt32 5) (boxInt32 0)).result
      = some (boxInt32 5) ∧
    ushr32 5 (shiftCount 32) = 5 := by
  have h1 := ursh_result undef allowDouble_ s 5 32
  rw [if_pos (by decide)] at h1
  have h2 := ursh_result undef allowDouble_ s 5 0
  rw [if_pos (by decide)] at h2
  refine ⟨h1.trans ?_, by decide, h2.trans ?_, by decide⟩
  · exact congrArg some (by decide)
  · exact congrArg some (by decide)

/-- C18: for a 32-bit signed `a` and a shift amount `0 ≤ b ≤ 31`, with `u` the
logical right shift of the 32-bit pattern of `a` by `b`: if `u < 2^31` the
Ursh stub returns the integer-tagged `u` whatever `allowDouble_` is; if
`u ≥ 2^31` it returns, when doubles are allowed, a double-tagged value whose
numeric value is exactly `u`, and bails when they are not. -/
theorem ursh_by_policy (undef : Nat → Nat → Nat) (s : Regs) (a b : Int)
    (_ha : isInt32 a) (hb0 : 0 ≤ b) (hb31 : b ≤ 31) :
    (ushr32 a b.toNat < 2147483648 →
      ∀ allowDouble_ : Bool,
        (runStub undef JSOp.JSOP_URSH allowDouble_ s (boxInt32 a) (boxInt32 b)).bailed = false ∧
        (runStub undef JSOp.JSOP_URSH allowDouble_ s (boxInt32 a) (boxInt32 b)).result
          = some (boxInt32 ((ushr32 a b.toNat : Nat) : Int))) ∧
    (2147483648 ≤ ushr32 a b.toNat →
      ((runStub undef JSOp.JSOP_URSH true s (boxInt32 a) (boxInt32 b)).bailed = false ∧
        ∃ v, (runStub undef JSOp.JSOP_URSH true s (boxInt32 a) (boxInt32 b)).result = some v ∧
          isDoubleTagged v = true ∧ isInt32Tagged v = false ∧
          doubleIsNat v (ushr32 a b.toNat)) ∧
      (runStub undef JSOp.JSOP_URSH false s (boxInt32 a) (boxInt32 b)).bailed = true) := by
  have hb : ofInt32 b = b.toNat := by
    unfold ofInt32; omega
  have hsrw : as_srw (ofInt32 a) (ofInt32 b) = ushr32 a b.toNat := by
    unfold as_srw ushr32
    rw [Nat.mod_eq_of_lt (ofInt32_lt a), hb, Nat.mod_eq_of_lt (show b.toNat < 64 by omega)]
  have hlt : ushr32 a b.toNat < 4294967296 := by
    rw [← hsrw]; exact as_srw_lt _ _
  have hres := fun allowDouble_ => ursh_result undef allowDouble_ s a b
  simp only [hsrw] at hres
  constructor
  · intro hu allowDouble_
    have h := hres allowDouble_
    rw [if_pos hu] at h
    have hbox : boxValue JSVAL_TYPE_INT32 (ushr32 a b.toNat)
        = boxInt32 ((ushr32 a b.toNat : Nat) : Int) := by
      unfold boxInt32
      congr 1
      unfold ofInt32
      omega
    rw [hbox] at h
    exact ⟨not_bailed_of_result_some h, h⟩
  · intro hu
    have ht := hres true
    have hf := hres false
    rw [if_neg (by omega), if_pos rfl] at ht
    rw [if_neg (by omega), if_neg (by decide)] at hf
    have hd := double_of_high_word hu hlt
    exact ⟨⟨not_bailed_of_result_some ht, _, ht, hd.1, hd.2.1, hd.2.2⟩,
      (bailed_iff_result_none _).mpr hf⟩

/-- Witness for C18: `Ursh(-1, 0)` gives `u = 4294967295`; with doubles allowed
the stub returns the double `0x41EFFFFFFFE00000` (4294967295.0), without it
bails. -/
theorem ursh_by_policy_witness :
    (isInt32 (-1) ∧ (0 : Int) ≤ 0 ∧ (0 : Int) ≤ 31) ∧
    ((ushr32 (-1) (0 : Int).toNat < 2147483648 →
      ∀ allowDouble_ : Bool,
        (runStub undefZero JSOp.JSOP_URSH allowDouble_ zeroRegs (boxInt32 (-1))
          (boxInt32 0)).bailed = false ∧
        (runStub undefZero JSOp.JSOP_URSH allowDouble_ zeroRegs (boxInt32 (-1))
          (boxInt32 0)).result
          = some (boxInt32 ((ushr32 (-1) (0 : Int).toNat : Nat) : Int))) ∧
    (2147483648 ≤ ushr32 (-1) (0 : Int).toNat →
      ((runStub undefZero JSOp.JSOP_URSH true zeroRegs (boxInt32 (-1)) (boxInt32 0)).bailed
          = false ∧
        ∃ v, (runStub undefZero JSOp.JSOP_URSH true zeroRegs (boxInt32 (-1))
            (boxInt32 0)).result = some v ∧
          isDoubleTagged v = true ∧ isInt32Tagged v = false ∧
          doubleIsNat v (ushr32 (-1) (0 : Int).toNat)) ∧
      (runStub undefZero JSOp.JSOP_URSH false zeroRegs (boxInt32 (-1)) (boxInt32 0)).bailed
        = true)) ∧
    ushr32 (-1) (0 : Int).toNat = 4294967295 ∧
    (runStub undefZero JSOp.JSOP_URSH true zeroRegs (boxInt32 (-1)) (boxInt32 0)).result
      = some 0x41EFFFFFFFE00000 ∧
    doubleIsNat 0x41EFFFFFFFE00000 4294967295 ∧
    (runStub undefZero JSOp.JSOP_URSH false zeroRegs (boxInt32 (-1)) (boxInt32 0)).bailed
      = true ∧
    (runStub undefZero JSOp.JSOP_URSH false zeroRegs (boxInt32 5) (boxInt32 1)).result
      = some (boxInt32 2) :=
  ⟨⟨by decide, by decide, by decide⟩,
   ursh_by_policy undefZero zeroRegs (-1) 0 (by decide) (by decide) (by decide),
   by decide, by decide, by decide, by decide, by decide⟩

/-! ## The bail-out edge leaves the operand slots alone -/

/-- C19: for every operator, every `allowDouble_` and every pair of boxed
operands (integer-tagged or not), whenever the stub takes the bail-out edge
the slots `R0` and `R1` hold exactly the boxed values they held on entry. -/
theorem bail_preserves_operands (undef : Nat → Nat → Nat) (op_ : JSOp)
    (allowDouble_ : Bool) (s : Regs) (x y : Nat)
    (h : (runStub undef op_ allowDouble_ s x y).bailed = true) :
    (runStub undef op_ allowDouble_ s x y).regs.R0 = x ∧
    (runStub undef op_ allowDouble_ s x y).regs.R1 = y := by
  cases op_ <;> simp only [runStub, generateStubCode] at h ⊢ <;>
    (repeat' split) <;> simp_all [Outcome.bailed, Outcome.regs]

/-- Witness for C19: `Div(7, 2)` bails after `divwo` and `mullw` have run, and
both operand slots still hold the boxed 7 and the boxed 2. -/
theorem bail_preserves_operands_witness :
    (runStub undefZero JSOp.JSOP_DIV false zeroRegs (boxInt32 7) (boxInt32 2)).bailed = true ∧
    ((runStub undefZero JSOp.JSOP_DIV false zeroRegs (boxInt32 7) (boxInt32 2)).regs.R0
        = boxInt32 7 ∧
      (runStub undefZero JSOp.JSOP_DIV false zeroRegs (boxInt32 7) (boxInt32 2)).regs.R1
        = boxInt32 2) ∧
    (runStub undefZero JSOp.JSOP_DIV false zeroRegs (boxInt32 7) (boxInt32 2)).regs.scratchReg
      = 3 :=
  ⟨by decide,
   bail_preserves_operands undefZero JSOp.JSOP_DIV false zeroRegs (boxInt32 7) (boxInt32 2)
     (by decide),
   by decide⟩

end SharedIC
